import Mathlib

/-!
Verification development for the RadeonProRenderUSD material registry
(`pxr/imaging/rprUsd/materialRegistry.cpp`).

The C++ source is shallowly embedded: pure data (shading networks, texture
commits) becomes inductive types and structures, external collaborators
(image cache, texture storage, node factories, the UDIM pattern matcher)
become oracle function fields of an environment record, and the observable
side effects of the code (callbacks, cache queries, storage probes, log
messages, node wiring) are recorded in explicit event traces.
-/

set_option maxHeartbeats 1000000
set_option maxRecDepth 100000

namespace RprUsd

/-- Shallow embedding of `VtValue` as used by the material registry: it is
either empty, or holds an `int`, a `std::string`, a
`std::shared_ptr<rpr::MaterialNode>` (identified by a numeric id), or a
token. -/
inductive VtVal where
  | empty
  | int (i : Int)
  | str (s : String)
  | node (id : Nat)
  | token (t : String)
deriving DecidableEq

/-- A constructed backend node (`RprUsd_MaterialNode`).  Its `GetOutput`
behavior is opaque to the registry code, so it is an oracle function. -/
structure MatNode where
  getOutput : String → VtVal

/-- `HdMaterialConnection2`: (upstream node path, upstream output name). -/
structure Connection where
  upstreamNode : String
  upstreamOutputName : String
deriving DecidableEq

/-- `HdMaterialNode2`: node type id, parameters, and the per-input lists of
upstream connections. -/
structure MaterialNode2 where
  nodeTypeId : String
  parameters : List (String × VtVal)
  inputConnections : List (String × List Connection)

/-- `HdMaterialNetwork2`: nodes keyed by path and terminal connections keyed
by terminal name.  The C++ uses `std::map`, whose keys are unique; the
embedding uses association lists whose lookup returns the first match. -/
structure MaterialNetwork2 where
  nodes : List (String × MaterialNode2)
  terminals : List (String × Connection)

/-- First-match association-list lookup, the embedding of `std::map::find`. -/
def lookupKV {β : Type _} : List (String × β) → String → Option β
  | [], _ => none
  | (a, b) :: rest, k => if a = k then some b else lookupKV rest k

/-- Observable events of the graph builder: error/warning log lines, the
start of a node's one-time input wiring step, and `SetInput`/`SetID`/`SetName`
calls on backend nodes. -/
inductive LogEvent where
  | codingErrorInvalidConnection (path : String)
  | runtimeErrorFanIn
  | beginWire (path : String)
  | setInput (path input : String) (v : VtVal)
  | nodeErrorLog (path typeId : String)
  | emptyNodeLog (path : String)
  | unknownTypeLog (typeId : String)
  | terminalTypeError
  | setMaterialId (i : Int)
  | setName (n : String)
deriving DecidableEq

/-- The mutable state threaded through output resolution: the visited set
(`std::set<SdfPath> visited`) and the event log. -/
structure ResolveState where
  visited : List String
  log : List LogEvent

def ResolveState.initial : ResolveState := ⟨[], []⟩

/-- Embedding of the recursive lambda `getNodeOutput`
(materialRegistry.cpp:526-584).  `fuel` bounds the recursion depth (the C++
recursion is unbounded; every claim proved below holds for every fuel).
Resolution returns the resolved `VtValue` together with the updated state. -/
def getNodeOutput (network : MaterialNetwork2) (materialNodes : List (String × MatNode)) :
    Nat → ResolveState → Connection → VtVal × ResolveState
  | 0, s, _ => (VtVal.empty, s)
  | fuel + 1, s, nodeConnection =>
    let nodePath := nodeConnection.upstreamNode
    match lookupKV network.nodes nodePath with
    | none => (VtVal.empty, ⟨s.visited, s.log ++ [LogEvent.codingErrorInvalidConnection nodePath]⟩)
    | some node =>
      match lookupKV materialNodes nodePath with
      | some materialNode =>
        let s1 :=
          if nodePath ∈ s.visited then s
          else
            node.inputConnections.foldl
              (fun (t : ResolveState) inputConnection =>
                match inputConnection.2 with
                | [connection] =>
                  let r := getNodeOutput network materialNodes fuel t connection
                  if r.1 = VtVal.empty then r.2
                  else ⟨r.2.visited, r.2.log ++ [LogEvent.setInput nodePath inputConnection.1 r.1]⟩
                | [] => t
                | _ => ⟨t.visited, t.log ++ [LogEvent.runtimeErrorFanIn]⟩)
              ⟨nodePath :: s.visited, s.log ++ [LogEvent.beginWire nodePath]⟩
        (materialNode.getOutput nodeConnection.upstreamOutputName, s1)
      | none =>
        match node.inputConnections with
        | [] => (VtVal.empty, s)
        | firstInput :: _ =>
          match firstInput.2 with
          | [connection] => getNodeOutput network materialNodes fuel s connection
          | [] => (VtVal.empty, s)
          | _ => (VtVal.empty, ⟨s.visited, s.log ++ [LogEvent.runtimeErrorFanIn]⟩)

/-- Number of times node `p` underwent its input-wiring step, read off the
event log. -/
def wireCount (log : List LogEvent) (p : String) : Nat :=
  log.count (LogEvent.beginWire p)

/-- The wiring invariant: a node has been wired exactly once if it is in the
visited set, and never otherwise. -/
def WireInv (s : ResolveState) : Prop :=
  ∀ p : String, wireCount s.log p = if p ∈ s.visited then 1 else 0

theorem foldl_preserve {α β : Type _} {P : α → Prop} (f : α → β → α)
    (l : List β) (s : α) (h : P s) (hf : ∀ a b, P a → P (f a b)) : P (l.foldl f s) := by
  induction l generalizing s with
  | nil => exact h
  | cons b bs ih => exact ih _ (hf _ _ h)

theorem WireInv_append (s : ResolveState) (evs : List LogEvent)
    (h : WireInv s) (hevs : ∀ p : String, LogEvent.beginWire p ∉ evs) :
    WireInv ⟨s.visited, s.log ++ evs⟩ := by
  intro p
  have hz : evs.count (LogEvent.beginWire p) = 0 := List.count_eq_zero.mpr (hevs p)
  simpa [wireCount, List.count_append, hz] using h p

theorem getNodeOutput_WireInv (network : MaterialNetwork2)
    (materialNodes : List (String × MatNode)) :
    ∀ (fuel : Nat) (s : ResolveState) (conn : Connection),
      WireInv s → WireInv (getNodeOutput network materialNodes fuel s conn).2 := by
  intro fuel
  induction fuel with
  | zero => intro s conn h; simpa [getNodeOutput] using h
  | succ n ih =>
    intro s conn h
    rw [getNodeOutput]
    dsimp only
    split
    · exact WireInv_append s _ h (by intro p hp; simp at hp)
    · split
      · dsimp only
        split
        · exact h
        · rename_i node _ _ hv
          apply foldl_preserve (P := WireInv)
          · intro p
            by_cases hp : p = conn.upstreamNode
            · rw [hp]
              have h0 := h conn.upstreamNode
              rw [if_neg hv] at h0
              simp only [wireCount] at h0
              simp [wireCount, List.count_append, List.count_cons, h0]
            · have h0 := h p
              have hz : List.count (LogEvent.beginWire p) [LogEvent.beginWire conn.upstreamNode] = 0 := by
                simp [List.count_cons, hp]
              simp only [wireCount, List.count_append, hz, Nat.add_zero, List.mem_cons]
              simpa [hp] using h0
          · intro t ic ht
            dsimp only
            split
            · rename_i connection _
              by_cases he : (getNodeOutput network materialNodes n t connection).1 = VtVal.empty
              · simpa [he] using ih t connection ht
              · simp only [he, if_false]
                exact WireInv_append _ _ (ih t connection ht) (by intro p hp; simp at hp)
            · exact ht
            · exact WireInv_append t _ ht (by intro p hp; simp at hp)
      · split
        · exact h
        · split
          · rename_i connection _
            exact ih s connection h
          · exact h
          · exact WireInv_append s _ h (by intro p hp; simp at hp)

/-- C1: for every shading network, the recursive output resolution
(`getNodeOutput`) performs the input-wiring step of each constructed backend
node at most once: the first visit to a node (tracked by the visited set
keyed by node path) wires its inputs, and any later visit — including visits
reached through diamond-shaped fan-in — only reads the node's output,
without re-wiring. -/
theorem C1_input_wiring_at_most_once (network : MaterialNetwork2)
    (materialNodes : List (String × MatNode)) (fuel : Nat) (conn : Connection) (p : String) :
    wireCount ((getNodeOutput network materialNodes fuel ResolveState.initial conn).2.log) p ≤ 1 := by
  have h := getNodeOutput_WireInv network materialNodes fuel ResolveState.initial conn
    (by intro q; simp [wireCount, ResolveState.initial])
  have hp := h p
  split at hp <;> omega

/-- The A→B→C chain network: B sits between A and C with exactly one input
connection (to A); the surface terminal reads C. -/
def chainNetworkABC (aType bType cType : String) : MaterialNetwork2 :=
  { nodes :=
      [ ("A", ⟨aType, [], []⟩),
        ("B", ⟨bType, [], [("in", [⟨"A", "out"⟩])]⟩),
        ("C", ⟨cType, [], [("in", [⟨"B", "bout"⟩])]⟩) ],
    terminals := [("surface", ⟨"C", "cout"⟩)] }

/-- The same chain with B removed and C rewired directly to A. -/
def chainNetworkAC (aType cType : String) : MaterialNetwork2 :=
  { nodes :=
      [ ("A", ⟨aType, [], []⟩),
        ("C", ⟨cType, [], [("in", [⟨"A", "out"⟩])]⟩) ],
    terminals := [("surface", ⟨"C", "cout"⟩)] }

/-- C2: a connection to an existing network node that has no constructed
backend node resolves by the pass-through rule — empty value when the node
has zero input connections, and otherwise the recursive resolution of the
node's first input connection.  Consequently a chain A→B→C whose middle
node B has no backend node and exactly one input connection resolves, state
and all, exactly like the network A→C with B removed (for arbitrary backend
nodes a, c and any sufficient recursion fuel). -/
theorem C2_pass_through_collapse :
    (∀ (network : MaterialNetwork2) (mats : List (String × MatNode)) (fuel : Nat)
        (s : ResolveState) (conn : Connection) (node : MaterialNode2),
      lookupKV network.nodes conn.upstreamNode = some node →
      lookupKV mats conn.upstreamNode = none →
      node.inputConnections = [] →
      getNodeOutput network mats (fuel + 1) s conn = (VtVal.empty, s)) ∧
    (∀ (network : MaterialNetwork2) (mats : List (String × MatNode)) (fuel : Nat)
        (s : ResolveState) (conn : Connection) (node : MaterialNode2)
        (inputName : String) (c0 : Connection) (rest : List (String × List Connection)),
      lookupKV network.nodes conn.upstreamNode = some node →
      lookupKV mats conn.upstreamNode = none →
      node.inputConnections = (inputName, [c0]) :: rest →
      getNodeOutput network mats (fuel + 1) s conn = getNodeOutput network mats fuel s c0) ∧
    (∀ (a c : MatNode) (aType bType cType : String) (fuel : Nat),
      getNodeOutput (chainNetworkABC aType bType cType) [("A", a), ("C", c)]
          (fuel + 3) ResolveState.initial ⟨"C", "cout"⟩ =
        getNodeOutput (chainNetworkAC aType cType) [("A", a), ("C", c)]
          (fuel + 3) ResolveState.initial ⟨"C", "cout"⟩) := by
  refine ⟨?_, ?_, ?_⟩
  · intro network mats fuel s conn node h1 h2 h3
    rw [getNodeOutput]
    simp [h1, h2, h3]
  · intro network mats fuel s conn node inputName c0 rest h1 h2 h3
    rw [getNodeOutput]
    simp [h1, h2, h3]
  · intro a c aType bType cType fuel
    rfl

/-- Concrete instance of the pass-through rule: a single unconstructed node
with no input connections resolves to the empty value, and the chain
collapse holds at a concrete pair of backend nodes. -/
theorem C2_pass_through_collapse_witness :
    getNodeOutput ⟨[("X", ⟨"tX", [], []⟩)], []⟩ [] 5 ResolveState.initial ⟨"X", "o"⟩ =
        (VtVal.empty, ResolveState.initial) ∧
      getNodeOutput (chainNetworkABC "ta" "tb" "tc")
          [("A", ⟨fun _ => VtVal.node 1⟩), ("C", ⟨fun _ => VtVal.node 2⟩)]
          10 ResolveState.initial ⟨"C", "cout"⟩ =
        getNodeOutput (chainNetworkAC "ta" "tc")
          [("A", ⟨fun _ => VtVal.node 1⟩), ("C", ⟨fun _ => VtVal.node 2⟩)]
          10 ResolveState.initial ⟨"C", "cout"⟩ :=
  ⟨C2_pass_through_collapse.1 ⟨[("X", ⟨"tX", [], []⟩)], []⟩ [] 4 ResolveState.initial
      ⟨"X", "o"⟩ ⟨"tX", [], []⟩ rfl rfl rfl,
    C2_pass_through_collapse.2.2 ⟨fun _ => VtVal.node 1⟩ ⟨fun _ => VtVal.node 2⟩ "ta" "tb" "tc" 7⟩

/-- Outcome of invoking a registered node factory
(`m_registeredNodes[...].factory(&context, node.parameters)`): a returned
pointer (possibly null), or one of the two exception kinds caught by the
per-node loop. -/
inductive FactoryResult where
  | ok (node : Option MatNode)
  | nodeError (msg : String)
  | nodeEmpty

/-- External collaborators of `CreateMaterial`.  `registry` is
`m_registeredNodesLookup` combined with `m_registeredNodes` (type id to
factory); `isHoudiniPS` is `IsHoudiniPrincipledShaderHydraNode` (`none` when
the predicate is false, `some b` with `b` the reported is-surface-node flag);
`mkHoudiniNode` is the `RprUsd_HoudiniPrincipledNode` constructor;
`mtlxMaterial` is the result of `CreateMaterialXFromUsdShade` (an external
usdShade/MaterialX path decided by the Sdr registry); the flag fields are
the `RprUsd_MaterialBuilderContext` fields read during `Finalize`. -/
structure BuildEnv where
  registry : String → Option (String → List (String × VtVal) → FactoryResult)
  isHoudiniPS : String → Option Bool
  mkHoudiniNode : List (String × VtVal) → Option (List (String × VtVal)) → MatNode
  isVolume : Bool
  mtlxMaterial : Option Nat
  isShadowCatcher : Bool
  isReflectionCatcher : Bool
  uvPrimvarName : String

/-- State accumulated by the per-node loop of `CreateMaterial`
(materialRegistry.cpp:491-518): the path-keyed map of constructed backend
nodes, the Houdini principled shader accumulation (surface part carries the
node path, set together with its parameters), and the log. -/
structure NodePassState where
  materialNodes : List (String × MatNode)
  houdiniSurface : Option (String × List (String × VtVal))
  houdiniDisp : Option (List (String × VtVal))
  log : List LogEvent

def NodePassState.initial : NodePassState := ⟨[], none, none, []⟩

/-- One iteration of the per-node loop of `CreateMaterial`
(materialRegistry.cpp:491-518). -/
def processNode (env : BuildEnv) (s : NodePassState) (entry : String × MaterialNode2) :
    NodePassState :=
  let nodePath := entry.1
  let node := entry.2
  match env.registry node.nodeTypeId with
  | some factory =>
    match factory nodePath node.parameters with
    | FactoryResult.ok (some mn) =>
      { s with materialNodes := s.materialNodes ++ [(nodePath, mn)] }
    | FactoryResult.ok none => s
    | FactoryResult.nodeError _ =>
      { s with log := s.log ++ [LogEvent.nodeErrorLog nodePath node.nodeTypeId] }
    | FactoryResult.nodeEmpty =>
      { s with log := s.log ++ [LogEvent.emptyNodeLog nodePath] }
  | none =>
    match env.isHoudiniPS nodePath with
    | some true => { s with houdiniSurface := some (nodePath, node.parameters) }
    | some false => { s with houdiniDisp := some node.parameters }
    | none => { s with log := s.log ++ [LogEvent.unknownTypeLog node.nodeTypeId] }

/-- The full per-node pass: iterate all network nodes, then — if the Houdini
principled shader pair was detected — synthesize the single merged backend
node from the accumulated surface and displacement parameter sets
(materialRegistry.cpp:520-523). -/
def runNodePass (env : BuildEnv) (nodes : List (String × MaterialNode2)) : NodePassState :=
  let s := nodes.foldl (processNode env) NodePassState.initial
  match s.houdiniSurface with
  | some ps =>
    { s with materialNodes := s.materialNodes ++ [(ps.1, env.mkHoudiniNode ps.2 s.houdiniDisp)] }
  | none => s

/-- `getTerminalRprNode` inside `Finalize` (materialRegistry.cpp:445-455):
a non-empty terminal output that does not hold a material node is reported
as an error and treated as null. -/
def getTerminalRprNode : VtVal → Option Nat × List LogEvent
  | VtVal.empty => (none, [])
  | VtVal.node id => (some id, [])
  | _ => (none, [LogEvent.terminalTypeError])

/-- The fields of `RprUsdGraphBasedMaterial` set by `Finalize`. -/
structure FinalizedMaterial where
  volumeNode : Option Nat
  surfaceNode : Option Nat
  displacementNode : Option Nat
  isShadowCatcher : Bool
  isReflectionCatcher : Bool
  uvPrimvarName : String
deriving DecidableEq

/-- `RprUsdGraphBasedMaterial::Finalize` (materialRegistry.cpp:438-477):
extracts the three terminal backend nodes, copies context metadata, tags the
surface node with the material id when one is set (`materialId >= 0`) and
names it, and succeeds iff any terminal node is non-null. -/
def finalize (env : BuildEnv) (surfaceOutput displacementOutput volumeOutput : VtVal)
    (cryptomatteName : String) (materialId : Int) :
    Bool × FinalizedMaterial × List LogEvent :=
  let v := getTerminalRprNode volumeOutput
  let su := getTerminalRprNode surfaceOutput
  let d := getTerminalRprNode displacementOutput
  let tagLog :=
    match su.1 with
    | some _ =>
      (if 0 ≤ materialId then [LogEvent.setMaterialId materialId] else []) ++
        [LogEvent.setName cryptomatteName]
    | none => []
  (v.1.isSome || su.1.isSome || d.1.isSome,
    ⟨v.1, su.1, d.1, env.isShadowCatcher, env.isReflectionCatcher, env.uvPrimvarName⟩,
    v.2 ++ su.2 ++ d.2 ++ tagLog)

/-- Terminal extraction (materialRegistry.cpp:586-593): resolve the terminal
connection when present, otherwise the empty value. -/
def getTerminalOutput (network : MaterialNetwork2) (materialNodes : List (String × MatNode))
    (fuel : Nat) (s : ResolveState) (terminalName : String) : VtVal × ResolveState :=
  match lookupKV network.terminals terminalName with
  | none => (VtVal.empty, s)
  | some conn => getNodeOutput network materialNodes fuel s conn

/-- Extraction of the integer `id` parameter from the surface terminal's
upstream node (materialRegistry.cpp:599-617); stays -1 when the terminal,
the node, the parameter, or an int-typed value is absent. -/
def extractMaterialRprId (network : MaterialNetwork2) : Int :=
  match lookupKV network.terminals "surface" with
  | none => -1
  | some conn =>
    match lookupKV network.nodes conn.upstreamNode with
    | none => -1
    | some node =>
      match lookupKV node.parameters "id" with
      | some (VtVal.int i) => i
      | _ => -1

/-- Extraction of the string `cryptomatteName` parameter from the surface
terminal's upstream node (materialRegistry.cpp:619-627). -/
def extractCryptomatteName (network : MaterialNetwork2) : Option String :=
  match lookupKV network.terminals "surface" with
  | none => none
  | some conn =>
    match lookupKV network.nodes conn.upstreamNode with
    | none => none
    | some node =>
      match lookupKV node.parameters "cryptomatteName" with
      | some (VtVal.str s) => some s
      | _ => none

/-- The material object returned by `CreateMaterial`: either the early
usdShade/MaterialX material or the graph-based material. -/
inductive RprUsdMaterialResult where
  | mtlx (node : Nat)
  | graphBased (m : FinalizedMaterial)
deriving DecidableEq

/-- `RprUsdMaterialRegistry::CreateMaterial` (materialRegistry.cpp:405-635),
from the network-conversion step onward: the early usdShade/MaterialX
return, the per-node pass, terminal resolution (volume, then surface, then
displacement, sharing one visited set), id/name extraction, and `Finalize`;
returns null exactly when `Finalize` fails. -/
def createMaterial (env : BuildEnv) (materialId : String) (network : MaterialNetwork2)
    (fuel : Nat) : Option RprUsdMaterialResult × List LogEvent :=
  match env.isVolume, env.mtlxMaterial with
  | false, some m => (some (RprUsdMaterialResult.mtlx m), [])
  | _, _ =>
    let pass := runNodePass env network.nodes
    let r1 := getTerminalOutput network pass.materialNodes fuel ⟨[], pass.log⟩ "volume"
    let r2 := getTerminalOutput network pass.materialNodes fuel r1.2 "surface"
    let r3 := getTerminalOutput network pass.materialNodes fuel r2.2 "displacement"
    let materialRprId := extractMaterialRprId network
    let cryptomatteName := (extractCryptomatteName network).getD materialId
    let f := finalize env r2.1 r3.1 r1.1 cryptomatteName materialRprId
    (if f.1 then some (RprUsdMaterialResult.graphBased f.2.1) else none, r3.2.log ++ f.2.2)

/-- The three resolved terminal outputs of the graph build, in the order
`CreateMaterial` resolves them (volume, surface, displacement), sharing one
visited set. -/
def resolvedTerminalOutputs (env : BuildEnv) (network : MaterialNetwork2) (fuel : Nat) :
    VtVal × VtVal × VtVal :=
  let pass := runNodePass env network.nodes
  let r1 := getTerminalOutput network pass.materialNodes fuel ⟨[], pass.log⟩ "volume"
  let r2 := getTerminalOutput network pass.materialNodes fuel r1.2 "surface"
  let r3 := getTerminalOutput network pass.materialNodes fuel r2.2 "displacement"
  (r1.1, r2.1, r3.1)

theorem finalize_success_eq (env : BuildEnv) (so dvo vo : VtVal) (cn : String) (mid : Int) :
    (finalize env so dvo vo cn mid).1 =
      ((getTerminalRprNode so).1.isSome || (getTerminalRprNode vo).1.isSome ||
        (getTerminalRprNode dvo).1.isSome) := by
  simp only [finalize]
  cases (getTerminalRprNode vo).1 <;> cases (getTerminalRprNode so).1 <;>
    cases (getTerminalRprNode dvo).1 <;> simp

theorem isSome_ite_graphBased (b : Bool) (x : FinalizedMaterial) :
    (if b = true then some (RprUsdMaterialResult.graphBased x) else none).isSome = b := by
  cases b <;> simp

/-- C3: `CreateMaterial` (when the early usdShade/MaterialX path does not
produce a material) returns a non-null material exactly when at least one of
the three resolved terminal outputs (surface, volume, displacement) yields a
non-null backend material node; when all three are null it returns null,
which is the only failure outcome. -/
theorem C3_material_success_iff (env : BuildEnv) (materialId : String)
    (network : MaterialNetwork2) (fuel : Nat)
    (h : env.isVolume = true ∨ env.mtlxMaterial = none) :
    (createMaterial env materialId network fuel).1.isSome =
      ((getTerminalRprNode (resolvedTerminalOutputs env network fuel).2.1).1.isSome ||
        (getTerminalRprNode (resolvedTerminalOutputs env network fuel).1).1.isSome ||
        (getTerminalRprNode (resolvedTerminalOutputs env network fuel).2.2).1.isSome) := by
  cases hv : env.isVolume with
  | false =>
    cases hm : env.mtlxMaterial with
    | some m =>
      rcases h with h1 | h1
      · rw [hv] at h1; exact absurd h1 (by simp)
      · rw [hm] at h1; exact absurd h1 (by simp)
    | none =>
      simp only [createMaterial, hv, hm, resolvedTerminalOutputs]
      rw [isSome_ite_graphBased, finalize_success_eq]
  | true =>
    cases hm : env.mtlxMaterial <;>
      · simp only [createMaterial, hv, hm, resolvedTerminalOutputs]
        rw [isSome_ite_graphBased, finalize_success_eq]

/-- A build environment with an empty registry and no external special
cases; used to instantiate the general theorems at concrete inputs. -/
def plainBuildEnv : BuildEnv :=
  { registry := fun _ => none,
    isHoudiniPS := fun _ => none,
    mkHoudiniNode := fun _ _ => ⟨fun _ => VtVal.empty⟩,
    isVolume := false,
    mtlxMaterial := none,
    isShadowCatcher := false,
    isReflectionCatcher := false,
    uvPrimvarName := "st" }

/-- Concrete instance of C3: on the empty network the build fails (all three
terminals are absent) and the equivalence holds. -/
theorem C3_material_success_iff_witness :
    (createMaterial plainBuildEnv "mat" ⟨[], []⟩ 3).1.isSome =
        ((getTerminalRprNode (resolvedTerminalOutputs plainBuildEnv ⟨[], []⟩ 3).2.1).1.isSome ||
          (getTerminalRprNode (resolvedTerminalOutputs plainBuildEnv ⟨[], []⟩ 3).1).1.isSome ||
          (getTerminalRprNode (resolvedTerminalOutputs plainBuildEnv ⟨[], []⟩ 3).2.2).1.isSome) ∧
      (createMaterial plainBuildEnv "mat" ⟨[], []⟩ 3).1 = none :=
  ⟨C3_material_success_iff plainBuildEnv "mat" ⟨[], []⟩ 3 (Or.inr rfl), rfl⟩

theorem lookupKV_append {β : Type _} (xs ys : List (String × β)) (k : String) :
    lookupKV (xs ++ ys) k =
      (match lookupKV xs k with | some v => some v | none => lookupKV ys k) := by
  induction xs with
  | nil => rfl
  | cons e rest ih =>
    cases e with
    | mk a b =>
      by_cases h : a = k
      · simp [lookupKV, h]
      · simp [lookupKV, h, ih]

theorem lookupKV_eq_none {β : Type _} (xs : List (String × β)) (k : String)
    (h : ∀ e ∈ xs, e.1 ≠ k) : lookupKV xs k = none := by
  induction xs with
  | nil => rfl
  | cons e rest ih =>
    cases e with
    | mk a b =>
      have ha : a ≠ k := h (a, b) (by simp)
      simp only [lookupKV, if_neg ha]
      exact ih (fun e he => h e (by simp [he]))

theorem processNode_houdini_surface_entry (env : BuildEnv) (s : NodePassState)
    (x : String × MaterialNode2) (hxr : env.registry x.2.nodeTypeId = none)
    (hx : env.isHoudiniPS x.1 = some true) :
    processNode env s x = { s with houdiniSurface := some (x.1, x.2.parameters) } := by
  simp [processNode, hxr, hx]

theorem processNode_houdini_disp_entry (env : BuildEnv) (s : NodePassState)
    (y : String × MaterialNode2) (hyr : env.registry y.2.nodeTypeId = none)
    (hy : env.isHoudiniPS y.1 = some false) :
    processNode env s y = { s with houdiniDisp := some y.2.parameters } := by
  simp [processNode, hyr, hy]

theorem processNode_materialNodes_cases (env : BuildEnv) (s : NodePassState)
    (e : String × MaterialNode2) :
    (processNode env s e).materialNodes = s.materialNodes ∨
    ∃ mn, (processNode env s e).materialNodes = s.materialNodes ++ [(e.1, mn)] := by
  simp only [processNode]
  split
  · split
    · exact Or.inr ⟨_, rfl⟩
    · exact Or.inl rfl
    · exact Or.inl rfl
    · exact Or.inl rfl
  · split
    · exact Or.inl rfl
    · exact Or.inl rfl
    · exact Or.inl rfl

theorem processNode_houdiniSurface_cases (env : BuildEnv) (s : NodePassState)
    (e : String × MaterialNode2) :
    (processNode env s e).houdiniSurface = s.houdiniSurface ∨
    (env.registry e.2.nodeTypeId = none ∧
      (processNode env s e).houdiniSurface = some (e.1, e.2.parameters)) := by
  simp only [processNode]
  split
  · split
    · exact Or.inl rfl
    · exact Or.inl rfl
    · exact Or.inl rfl
    · exact Or.inl rfl
  · rename_i hreg
    split
    · exact Or.inr ⟨hreg, rfl⟩
    · exact Or.inl rfl
    · exact Or.inl rfl

theorem processNode_houdini_none (env : BuildEnv) (s : NodePassState)
    (e : String × MaterialNode2) (h : env.isHoudiniPS e.1 = none) :
    (processNode env s e).houdiniSurface = s.houdiniSurface ∧
    (processNode env s e).houdiniDisp = s.houdiniDisp := by
  simp only [processNode]
  split
  · split <;> exact ⟨rfl, rfl⟩
  · rw [h]
    exact ⟨rfl, rfl⟩

theorem foldl_houdini_none (env : BuildEnv) (l : List (String × MaterialNode2))
    (s : NodePassState) (h : ∀ e ∈ l, env.isHoudiniPS e.1 = none) :
    (l.foldl (processNode env) s).houdiniSurface = s.houdiniSurface ∧
    (l.foldl (processNode env) s).houdiniDisp = s.houdiniDisp := by
  induction l generalizing s with
  | nil => exact ⟨rfl, rfl⟩
  | cons e rest ih =>
    have he := processNode_houdini_none env s e (h e (by simp))
    have hr := ih (processNode env s e) (fun e' he' => h e' (by simp [he']))
    exact ⟨hr.1.trans he.1, hr.2.trans he.2⟩

theorem foldl_materialNodes_lookup (env : BuildEnv) (l : List (String × MaterialNode2))
    (s : NodePassState) (k : String) (h : ∀ e ∈ l, e.1 ≠ k) :
    lookupKV (l.foldl (processNode env) s).materialNodes k = lookupKV s.materialNodes k := by
  induction l generalizing s with
  | nil => rfl
  | cons e rest ih =>
    have hstep : lookupKV (processNode env s e).materialNodes k = lookupKV s.materialNodes k := by
      rcases processNode_materialNodes_cases env s e with hc | ⟨mn, hc⟩
      · rw [hc]
      · rw [hc, lookupKV_append]
        have : lookupKV [(e.1, mn)] k = none :=
          lookupKV_eq_none _ _ (by intro q hq; simp at hq; simp [hq, h e (by simp)])
        cases hl : lookupKV s.materialNodes k <;> simp [hl, this]
    rw [List.foldl_cons, ih (processNode env s e) (fun e' he' => h e' (by simp [he'])), hstep]

theorem foldl_materialNodes_count (env : BuildEnv) (l : List (String × MaterialNode2))
    (s : NodePassState) (k : String) (h : ∀ e ∈ l, e.1 ≠ k) :
    ((l.foldl (processNode env) s).materialNodes.map Prod.fst).count k =
      (s.materialNodes.map Prod.fst).count k := by
  induction l generalizing s with
  | nil => rfl
  | cons e rest ih =>
    have hstep : ((processNode env s e).materialNodes.map Prod.fst).count k =
        (s.materialNodes.map Prod.fst).count k := by
      rcases processNode_materialNodes_cases env s e with hc | ⟨mn, hc⟩
      · rw [hc]
      · rw [hc]
        simp [List.count_append, List.count_cons, h e (by simp)]
    rw [List.foldl_cons, ih (processNode env s e) (fun e' he' => h e' (by simp [he'])), hstep]

theorem foldl_houdiniSurface_source (env : BuildEnv) (l : List (String × MaterialNode2))
    (s : NodePassState) :
    (l.foldl (processNode env) s).houdiniSurface = s.houdiniSurface ∨
    ∃ e ∈ l, env.registry e.2.nodeTypeId = none ∧
      (l.foldl (processNode env) s).houdiniSurface = some (e.1, e.2.parameters) := by
  induction l generalizing s with
  | nil => exact Or.inl rfl
  | cons e rest ih =>
    rw [List.foldl_cons]
    rcases ih (processNode env s e) with hr | ⟨e', he', hreg, hval⟩
    · rcases processNode_houdiniSurface_cases env s e with hc | ⟨hreg, hc⟩
      · exact Or.inl (hr.trans hc)
      · exact Or.inr ⟨e, by simp, hreg, hr.trans hc⟩
    · exact Or.inr ⟨e', by simp [he'], hreg, hval⟩

/-- A registry whose only factory returns a null node. -/
def nullReturnEnv : BuildEnv :=
  { plainBuildEnv with
    registry := fun t => if t = "tNull" then some (fun _ _ => FactoryResult.ok none) else none }

/-- C7 counterexample: when a registered factory returns a null node, the
per-node loop of `CreateMaterial` skips the node silently — contrary to the
claim, nothing at all is logged for the null-return case (the node is indeed
absent from the graph). -/
theorem C7_null_return_unlogged_counterexample :
    nullReturnEnv.registry "tNull" = some (fun _ _ => FactoryResult.ok none) ∧
      (runNodePass nullReturnEnv [("n", ⟨"tNull", [], []⟩)]).log = [] ∧
      (runNodePass nullReturnEnv [("n", ⟨"tNull", [], []⟩)]).materialNodes = [] :=
  ⟨rfl, rfl, rfl⟩

/-- C7 (amended): a factory returning null is skipped silently (no log); a
thrown empty-node condition is logged with the node path; a thrown
node-error condition is logged with the node path and type.  In every case
the state is otherwise unchanged — so the iteration simply continues with
the next node and the build is not aborted — and after the full pass no
backend node exists at the failing node's path. -/
theorem C7_node_failure_amended :
    (∀ (env : BuildEnv) (s : NodePassState) (p : String) (node : MaterialNode2)
        (factory : String → List (String × VtVal) → FactoryResult),
      env.registry node.nodeTypeId = some factory →
      ((factory p node.parameters = FactoryResult.ok none →
          processNode env s (p, node) = s) ∧
        (∀ msg, factory p node.parameters = FactoryResult.nodeError msg →
          processNode env s (p, node) =
            { s with log := s.log ++ [LogEvent.nodeErrorLog p node.nodeTypeId] }) ∧
        (factory p node.parameters = FactoryResult.nodeEmpty →
          processNode env s (p, node) =
            { s with log := s.log ++ [LogEvent.emptyNodeLog p] }))) ∧
    (∀ (env : BuildEnv) (pre post : List (String × MaterialNode2)) (p : String)
        (node : MaterialNode2) (factory : String → List (String × VtVal) → FactoryResult),
      env.registry node.nodeTypeId = some factory →
      (factory p node.parameters = FactoryResult.ok none ∨
        factory p node.parameters = FactoryResult.nodeEmpty ∨
        ∃ msg, factory p node.parameters = FactoryResult.nodeError msg) →
      (∀ e ∈ pre ++ post, e.1 ≠ p) →
      lookupKV (runNodePass env (pre ++ (p, node) :: post)).materialNodes p = none) := by
  constructor
  · intro env s p node factory hreg
    refine ⟨?_, ?_, ?_⟩
    · intro hf; simp [processNode, hreg, hf]
    · intro msg hf; simp [processNode, hreg, hf]
    · intro hf; simp [processNode, hreg, hf]
  · intro env pre post p node factory hreg hfail hfresh
    have hpre : ∀ e ∈ pre, e.1 ≠ p := fun e he => hfresh e (by simp [he])
    have hpost : ∀ e ∈ post, e.1 ≠ p := fun e he => hfresh e (by simp [he])
    have hstepmn : ∀ t : NodePassState,
        (processNode env t (p, node)).materialNodes = t.materialNodes := by
      intro t
      rcases hfail with hf | hf | ⟨msg, hf⟩ <;> simp [processNode, hreg, hf]
    have hmn : lookupKV
        ((pre ++ (p, node) :: post).foldl (processNode env) NodePassState.initial).materialNodes
        p = none := by
      rw [List.foldl_append, List.foldl_cons,
        foldl_materialNodes_lookup env post _ p hpost]
      rw [show ∀ t : NodePassState, lookupKV (processNode env t (p, node)).materialNodes p =
          lookupKV t.materialNodes p from fun t => by rw [hstepmn]]
      rw [foldl_materialNodes_lookup env pre _ p hpre]
      rfl
    rcases foldl_houdiniSurface_source env (pre ++ (p, node) :: post) NodePassState.initial with
      hhs | ⟨e, he, hereg, hval⟩
    · simp only [runNodePass]
      rw [hhs]
      exact hmn
    · have hne : e.1 ≠ p := by
        rcases List.mem_append.mp he with hin | hin
        · exact hpre e hin
        · rcases List.mem_cons.mp hin with hin2 | hin3
          · exact absurd (hin2 ▸ hereg) (by simp [hreg])
          · exact hpost e hin3
      simp only [runNodePass]
      rw [hval, lookupKV_append, hmn]
      simp [lookupKV, hne]

/-- A registry whose only factory throws the empty-node condition. -/
def emptyThrowEnv : BuildEnv :=
  { plainBuildEnv with
    registry := fun t => if t = "tEmpty" then some (fun _ _ => FactoryResult.nodeEmpty) else none }

/-- Concrete instance of the amended C7: an empty-node throw is logged with
the node path and leaves no backend node at that path. -/
theorem C7_node_failure_amended_witness :
    processNode emptyThrowEnv NodePassState.initial ("n", ⟨"tEmpty", [], []⟩) =
        { NodePassState.initial with
            log := NodePassState.initial.log ++ [LogEvent.emptyNodeLog "n"] } ∧
      lookupKV (runNodePass emptyThrowEnv [("n", ⟨"tEmpty", [], []⟩)]).materialNodes "n" = none :=
  ⟨(C7_node_failure_amended.1 emptyThrowEnv NodePassState.initial "n" ⟨"tEmpty", [], []⟩
        (fun _ _ => FactoryResult.nodeEmpty) rfl).2.2 rfl,
    C7_node_failure_amended.2 emptyThrowEnv [] [] "n" ⟨"tEmpty", [], []⟩
        (fun _ _ => FactoryResult.nodeEmpty) rfl (Or.inr (Or.inl rfl))
        (by intro e he; simp at he)⟩

/-- C9: when the Houdini principled shader pair (a surface-flavor node x and
a displacement-flavor node y, neither registered) is detected, the per-node
pass accumulates both parameter sets and only after the full iteration
synthesizes exactly one merged backend node at the surface part's path, built
from both parameter sets; the entire pass result is identical whichever of
the two parts comes first in iteration order. -/
theorem C9_houdini_pair_order_independent (env : BuildEnv)
    (pre post : List (String × MaterialNode2)) (x y : String × MaterialNode2)
    (hxr : env.registry x.2.nodeTypeId = none)
    (hyr : env.registry y.2.nodeTypeId = none)
    (hx : env.isHoudiniPS x.1 = some true)
    (hy : env.isHoudiniPS y.1 = some false)
    (hoth : ∀ e ∈ pre ++ post, env.isHoudiniPS e.1 = none)
    (hpath : ∀ e ∈ pre ++ post, e.1 ≠ x.1) :
    runNodePass env (pre ++ x :: y :: post) = runNodePass env (pre ++ y :: x :: post) ∧
      ((runNodePass env (pre ++ x :: y :: post)).materialNodes.map Prod.fst).count x.1 = 1 ∧
      lookupKV (runNodePass env (pre ++ x :: y :: post)).materialNodes x.1 =
        some (env.mkHoudiniNode x.2.parameters (some y.2.parameters)) := by
  have hpreh : ∀ e ∈ pre, env.isHoudiniPS e.1 = none := fun e he => hoth e (by simp [he])
  have hposth : ∀ e ∈ post, env.isHoudiniPS e.1 = none := fun e he => hoth e (by simp [he])
  have hprep : ∀ e ∈ pre, e.1 ≠ x.1 := fun e he => hpath e (by simp [he])
  have hpostp : ∀ e ∈ post, e.1 ≠ x.1 := fun e he => hpath e (by simp [he])
  have hswapstep : ∀ s, processNode env (processNode env s x) y =
      processNode env (processNode env s y) x := by
    intro s
    rw [processNode_houdini_surface_entry env s x hxr hx,
      processNode_houdini_disp_entry env _ y hyr hy,
      processNode_houdini_disp_entry env s y hyr hy,
      processNode_houdini_surface_entry env _ x hxr hx]
  have hswap : (pre ++ x :: y :: post).foldl (processNode env) NodePassState.initial =
      (pre ++ y :: x :: post).foldl (processNode env) NodePassState.initial := by
    rw [List.foldl_append, List.foldl_append, List.foldl_cons, List.foldl_cons,
      List.foldl_cons, List.foldl_cons, hswapstep]
  have hhs : ((pre ++ x :: y :: post).foldl (processNode env)
      NodePassState.initial).houdiniSurface = some (x.1, x.2.parameters) := by
    rw [List.foldl_append, List.foldl_cons, List.foldl_cons,
      processNode_houdini_surface_entry env _ x hxr hx,
      processNode_houdini_disp_entry env _ y hyr hy,
      (foldl_houdini_none env post _ hposth).1]
  have hhd : ((pre ++ x :: y :: post).foldl (processNode env)
      NodePassState.initial).houdiniDisp = some y.2.parameters := by
    rw [List.foldl_append, List.foldl_cons, List.foldl_cons,
      processNode_houdini_surface_entry env _ x hxr hx,
      processNode_houdini_disp_entry env _ y hyr hy,
      (foldl_houdini_none env post _ hposth).2]
  have hcnt : (((pre ++ x :: y :: post).foldl (processNode env)
      NodePassState.initial).materialNodes.map Prod.fst).count x.1 = 0 := by
    rw [List.foldl_append, List.foldl_cons, List.foldl_cons,
      processNode_houdini_surface_entry env _ x hxr hx,
      processNode_houdini_disp_entry env _ y hyr hy,
      foldl_materialNodes_count env post _ x.1 hpostp]
    exact foldl_materialNodes_count env pre _ x.1 hprep
  have hlkp : lookupKV ((pre ++ x :: y :: post).foldl (processNode env)
      NodePassState.initial).materialNodes x.1 = none := by
    rw [List.foldl_append, List.foldl_cons, List.foldl_cons,
      processNode_houdini_surface_entry env _ x hxr hx,
      processNode_houdini_disp_entry env _ y hyr hy,
      foldl_materialNodes_lookup env post _ x.1 hpostp]
    exact foldl_materialNodes_lookup env pre _ x.1 hprep
  have hfin : runNodePass env (pre ++ x :: y :: post) =
      { (pre ++ x :: y :: post).foldl (processNode env) NodePassState.initial with
        materialNodes :=
          ((pre ++ x :: y :: post).foldl (processNode env)
            NodePassState.initial).materialNodes ++
          [(x.1, env.mkHoudiniNode x.2.parameters (some y.2.parameters))] } := by
    simp only [runNodePass]
    rw [hhs, hhd]
  refine ⟨?_, ?_, ?_⟩
  · simp only [runNodePass, hswap]
  · rw [hfin]
    dsimp only
    rw [List.map_append, List.count_append, hcnt]
    simp
  · rw [hfin]
    dsimp only
    rw [lookupKV_append, hlkp]
    simp [lookupKV]

/-- Build environment where paths "hs" and "hd" are recognized as the
surface and displacement parts of the Houdini principled shader. -/
def houdiniPairEnv : BuildEnv :=
  { plainBuildEnv with
    isHoudiniPS := fun p =>
      if p = "hs" then some true else if p = "hd" then some false else none }

/-- Concrete instance of C9 with the two-node pair alone in the network. -/
theorem C9_houdini_pair_order_independent_witness :
    runNodePass houdiniPairEnv [("hs", ⟨"", [("a", VtVal.int 1)], []⟩),
        ("hd", ⟨"", [("b", VtVal.int 2)], []⟩)] =
      runNodePass houdiniPairEnv [("hd", ⟨"", [("b", VtVal.int 2)], []⟩),
        ("hs", ⟨"", [("a", VtVal.int 1)], []⟩)] ∧
    ((runNodePass houdiniPairEnv [("hs", ⟨"", [("a", VtVal.int 1)], []⟩),
        ("hd", ⟨"", [("b", VtVal.int 2)], []⟩)]).materialNodes.map Prod.fst).count "hs" = 1 ∧
    lookupKV (runNodePass houdiniPairEnv [("hs", ⟨"", [("a", VtVal.int 1)], []⟩),
        ("hd", ⟨"", [("b", VtVal.int 2)], []⟩)]).materialNodes "hs" =
      some (houdiniPairEnv.mkHoudiniNode [("a", VtVal.int 1)] (some [("b", VtVal.int 2)])) :=
  C9_houdini_pair_order_independent houdiniPairEnv [] []
    ("hs", ⟨"", [("a", VtVal.int 1)], []⟩) ("hd", ⟨"", [("b", VtVal.int 2)], []⟩)
    rfl rfl rfl rfl (by intro e he; simp at he) (by intro e he; simp at he)

/-- Discriminator for surface-node id-tagging events. -/
def LogEvent.isSetId : LogEvent → Bool
  | LogEvent.setMaterialId _ => true
  | _ => false

/-- C8 (amended): during finalization the backend surface node is tagged
with the identifier exactly when a surface node exists AND the extracted
identifier is nonnegative; the extraction yields the id parameter's value
when the surface terminal's upstream node carries an int-valued `id`
parameter and stays -1 when the parameter is absent (so an absent id never
tags, but a negative id parameter does not tag either). -/
theorem C8_surface_id_tagging_amended :
    (∀ (env : BuildEnv) (so dvo vo : VtVal) (cn : String) (mid : Int),
      (finalize env so dvo vo cn mid).2.2.filter LogEvent.isSetId =
        (if 0 ≤ mid ∧ (getTerminalRprNode so).1.isSome
          then [LogEvent.setMaterialId mid] else [])) ∧
    (∀ (network : MaterialNetwork2) (conn : Connection) (node : MaterialNode2) (i : Int),
      lookupKV network.terminals "surface" = some conn →
      lookupKV network.nodes conn.upstreamNode = some node →
      lookupKV node.parameters "id" = some (VtVal.int i) →
      extractMaterialRprId network = i) ∧
    (∀ (network : MaterialNetwork2) (conn : Connection) (node : MaterialNode2),
      lookupKV network.terminals "surface" = some conn →
      lookupKV network.nodes conn.upstreamNode = some node →
      lookupKV node.parameters "id" = none →
      extractMaterialRprId network = -1) := by
  refine ⟨?_, ?_, ?_⟩
  · intro env so dvo vo cn mid
    have hterm : ∀ z : VtVal, (getTerminalRprNode z).2.filter LogEvent.isSetId = [] := by
      intro z; cases z <;> rfl
    simp only [finalize, List.filter_append, hterm, List.nil_append]
    cases hso : (getTerminalRprNode so).1 with
    | none => simp
    | some k =>
      by_cases hm : 0 ≤ mid
      · simp [hm, List.filter_append, LogEvent.isSetId]
      · simp [hm, List.filter_append, LogEvent.isSetId]
  · intro network conn node i h1 h2 h3
    simp [extractMaterialRprId, h1, h2, h3]
  · intro network conn node h1 h2 h3
    simp [extractMaterialRprId, h1, h2, h3]

/-- A registry with one factory ("tSurf") producing a backend node whose
every output is backend material node 7. -/
def surfFactoryEnv : BuildEnv :=
  { plainBuildEnv with
    registry := fun t =>
      if t = "tSurf" then some (fun _ _ => FactoryResult.ok (some ⟨fun _ => VtVal.node 7⟩))
      else none }

/-- A network whose surface terminal's upstream node carries the int-valued
id parameter -1. -/
def negIdNetwork : MaterialNetwork2 :=
  { nodes := [("S", ⟨"tSurf", [("id", VtVal.int (-1))], []⟩)],
    terminals := [("surface", ⟨"S", "out"⟩)] }

/-- C8 counterexample: the surface terminal's upstream node carries the
integer-valued identifier parameter -1 and a backend surface node exists
(the build succeeds with surface node 7), yet `CreateMaterial` emits no
id-tagging call — the code tags only when the identifier is nonnegative,
so the claim as stated is false. -/
theorem C8_negative_id_untagged_counterexample :
    lookupKV (([("id", VtVal.int (-1))] : List (String × VtVal))) "id" =
        some (VtVal.int (-1)) ∧
      (createMaterial surfFactoryEnv "mat" negIdNetwork 3).1 =
        some (RprUsdMaterialResult.graphBased ⟨none, some 7, none, false, false, "st"⟩) ∧
      (createMaterial surfFactoryEnv "mat" negIdNetwork 3).2.filter LogEvent.isSetId = [] := by
  refine ⟨rfl, ?_, ?_⟩ <;> decide

/-- Concrete instance of the amended C8: with a surface node present, id 5
tags and id -1 does not; extraction reads the int parameter. -/
theorem C8_surface_id_tagging_amended_witness :
    (finalize plainBuildEnv (VtVal.node 7) VtVal.empty VtVal.empty "m" 5).2.2.filter
        LogEvent.isSetId =
      (if 0 ≤ (5 : Int) ∧ (getTerminalRprNode (VtVal.node 7)).1.isSome
        then [LogEvent.setMaterialId 5] else []) ∧
    extractMaterialRprId negIdNetwork = -1 :=
  ⟨C8_surface_id_tagging_amended.1 plainBuildEnv (VtVal.node 7) VtVal.empty VtVal.empty "m" 5,
    C8_surface_id_tagging_amended.2.1 negIdNetwork ⟨"S", "out"⟩
      ⟨"tSurf", [("id", VtVal.int (-1))], []⟩ (-1) rfl rfl rfl⟩

/-- A pending texture commit (`RprUsdMaterialRegistry::TextureCommit`):
file path, colorspace, wrap mode, required component count; the completion
callback is identified in the trace by the commit's queue index. -/
structure TextureCommit where
  filepath : String
  colorspace : String
  wrapType : Nat
  numComponentsRequired : Nat
deriving DecidableEq

/-- Observable events of `CommitResources`: image-cache queries, storage
existence probes, raw texture loads, and commit-callback invocations. -/
inductive TraceEvent where
  | getImageCall (path colorspace : String) (wrap : Nat) (tiles : List (Nat × Nat))
      (numComponents : Nat)
  | fileAccess (path : String)
  | loadTexture (path : String)
  | callback (commitIndex : Nat) (image : Option Nat)
deriving DecidableEq

/-- External collaborators of `CommitResources`: the image cache
(`RprUsdImageCache::GetImage`, an oracle over path, colorspace, wrap mode,
tile list, required components; backend images are numeric ids), the UDIM
pattern matcher (`RprUsdGetUDIMFormatString`, a repository helper outside
the given source, modelled from the spec: it reports whether the path
matches the multi-tile addressing pattern, yielding the format string), the
tile-path formatter (`TfStringPrintf`), storage existence (`ArchFileAccess`)
and the raw texture loader (`RprUsdTextureData::New`, payloads are numeric
ids). -/
structure CommitEnv where
  getImage : String → String → Nat → List (Nat × Nat) → Nat → Option Nat
  udimFormatString : String → Option String
  formatTile : String → Nat → String
  fileExists : String → Bool
  loadTextureData : String → Option Nat

/-- The unique-texture accumulator: `uniqueTexturesMapping` (path → index)
and `uniqueTextures` (path, udim tile id); loaded payloads are attached in
phase 2. -/
structure UniqueAcc where
  mapping : List (String × Nat)
  textures : List (String × Nat)

def UniqueAcc.initial : UniqueAcc := ⟨[], []⟩

/-- `getUniqueTextureIndex` (materialRegistry.cpp:163-169): emplace into the
mapping; a fresh path gets index `mapping.size()` and appends one
unique-texture entry. -/
def getUniqueTextureIndex (acc : UniqueAcc) (path : String) (udimTileId : Nat) :
    Nat × UniqueAcc :=
  match lookupKV acc.mapping path with
  | some idx => (idx, acc)
  | none =>
    (acc.mapping.length,
      ⟨acc.mapping ++ [(path, acc.mapping.length)], acc.textures ++ [(path, udimTileId)]⟩)

/-- The UDIM tile probe loop (materialRegistry.cpp:187-192): for each tile
id format the tile path, probe storage, and collect the unique-texture
index of each existing tile.  Returns the commit's index list, the updated
accumulator, and the probe trace. -/
def udimProbe (env : CommitEnv) (fmt : String) :
    List Nat → UniqueAcc → List Nat × UniqueAcc × List TraceEvent
  | [], acc => ([], acc, [])
  | tileId :: rest, acc =>
    let tilePath := env.formatTile fmt tileId
    if env.fileExists tilePath then
      let r0 := getUniqueTextureIndex acc tilePath tileId
      let r := udimProbe env fmt rest r0.2
      (r0.1 :: r.1, r.2.1, TraceEvent.fileAccess tilePath :: r.2.2)
    else
      let r := udimProbe env fmt rest acc
      (r.1, r.2.1, TraceEvent.fileAccess tilePath :: r.2.2)

/-- The inclusive UDIM tile-id range 1001..1100
(materialRegistry.cpp:184-185). -/
def udimTileRange : List Nat := List.range' 1001 100

/-- State threaded through phase 1 of `CommitResources`: per-commit
unique-texture index lists, the unique-texture accumulator, and the trace. -/
structure Phase1State where
  perCommitIndices : List (List Nat)
  acc : UniqueAcc
  trace : List TraceEvent

def Phase1State.initial : Phase1State := ⟨[], UniqueAcc.initial, []⟩

/-- Phase 1 for one commit (materialRegistry.cpp:174-196): query the image
cache with an empty tile list and zero required components; on a hit invoke
the callback immediately (and record an empty index list); otherwise expand
a UDIM pattern over the tile range, or register the literal path. -/
def phase1Step (env : CommitEnv) (i : Nat) (c : TextureCommit) (s : Phase1State) :
    Phase1State :=
  let call := TraceEvent.getImageCall c.filepath c.colorspace c.wrapType [] 0
  match env.getImage c.filepath c.colorspace c.wrapType [] 0 with
  | some img =>
    { s with perCommitIndices := s.perCommitIndices ++ [[]],
             trace := s.trace ++ [call, TraceEvent.callback i (some img)] }
  | none =>
    match env.udimFormatString c.filepath with
    | some fmt =>
      let r := udimProbe env fmt udimTileRange s.acc
      { perCommitIndices := s.perCommitIndices ++ [r.1],
        acc := r.2.1,
        trace := s.trace ++ [call] ++ r.2.2 }
    | none =>
      let r := getUniqueTextureIndex s.acc c.filepath 0
      { perCommitIndices := s.perCommitIndices ++ [[r.1]],
        acc := r.2,
        trace := s.trace ++ [call] }

/-- Phase 1 over the commit queue; `i` is the index of the next commit. -/
def phase1Run (env : CommitEnv) : Nat → List TextureCommit → Phase1State → Phase1State
  | _, [], s => s
  | i, c :: cs, s => phase1Run env (i + 1) cs (phase1Step env i c s)

/-- Phase 2 (materialRegistry.cpp:200-210): load every unique texture's raw
payload from storage (data-parallel in the C++, each task writing its own
slot, so the slot contents are order-independent). -/
def phase2 (env : CommitEnv) (textures : List (String × Nat)) :
    List (Option Nat) × List TraceEvent :=
  (textures.map (fun u => env.loadTextureData u.1),
    textures.map (fun u => TraceEvent.loadTexture u.1))

/-- Phase 3 for one commit (materialRegistry.cpp:215-231): skip commits with
an empty index list; otherwise gather the successfully loaded tiles, request
one backend image with the commit's required component count, and invoke
the callback with the result. -/
def phase3Step (env : CommitEnv) (data : List (Option Nat)) (textures : List (String × Nat))
    (i : Nat) (c : TextureCommit) (inds : List Nat) : List TraceEvent :=
  if inds.isEmpty then []
  else
    let tiles := inds.filterMap (fun idx =>
      match data.getD idx none with
      | some d => some ((textures.getD idx ("", 0)).2, d)
      | none => none)
    let img := env.getImage c.filepath c.colorspace c.wrapType tiles c.numComponentsRequired
    [TraceEvent.getImageCall c.filepath c.colorspace c.wrapType tiles c.numComponentsRequired,
      TraceEvent.callback i img]

/-- Phase 3 over the commit queue with the per-commit index lists. -/
def phase3Run (env : CommitEnv) (data : List (Option Nat)) (textures : List (String × Nat)) :
    Nat → List TextureCommit → List (List Nat) → List TraceEvent
  | _, [], _ => []
  | _, _ :: _, [] => []
  | i, c :: cs, inds :: rest =>
    phase3Step env data textures i c inds ++ phase3Run env data textures (i + 1) cs rest

/-- The three phases of one `CommitResources` run: the phase-1 state, the
loaded payloads, the load trace, and the phase-3 trace. -/
def commitResourcesRun (env : CommitEnv) (commits : List TextureCommit) :
    Phase1State × List (Option Nat) × List TraceEvent × List TraceEvent :=
  let s1 := phase1Run env 0 commits Phase1State.initial
  let p2 := phase2 env s1.acc.textures
  let t3 := phase3Run env p2.1 s1.acc.textures 0 commits s1.perCommitIndices
  (s1, p2.1, p2.2, t3)

/-- `RprUsdMaterialRegistry::CommitResources` (materialRegistry.cpp:143-234):
full event trace plus the commit queue after the run (always cleared,
`m_textureCommits.clear()`). -/
def commitResources (env : CommitEnv) (commits : List TextureCommit) :
    List TraceEvent × List TextureCommit :=
  if commits.isEmpty then ([], commits)
  else
    let r := commitResourcesRun env commits
    (r.1.trace ++ r.2.2.1 ++ r.2.2.2, [])

theorem udimProbe_trace (env : CommitEnv) (fmt : String) :
    ∀ (ts : List Nat) (acc : UniqueAcc),
      (udimProbe env fmt ts acc).2.2 =
        ts.map (fun t => TraceEvent.fileAccess (env.formatTile fmt t)) := by
  intro ts
  induction ts with
  | nil => intro acc; rfl
  | cons t rest ih =>
    intro acc
    simp only [udimProbe]
    by_cases h : env.fileExists (env.formatTile fmt t) = true
    · simp [h, ih]
    · simp [h, ih]

theorem udimProbe_length (env : CommitEnv) (fmt : String) :
    ∀ (ts : List Nat) (acc : UniqueAcc),
      (udimProbe env fmt ts acc).1.length =
        (ts.filter (fun t => env.fileExists (env.formatTile fmt t))).length := by
  intro ts
  induction ts with
  | nil => intro acc; rfl
  | cons t rest ih =>
    intro acc
    simp only [udimProbe]
    by_cases h : env.fileExists (env.formatTile fmt t) = true
    · simp [h, ih]
    · simp [h, ih]

theorem lookupKV_none_forall {β : Type _} (xs : List (String × β)) (k : String)
    (h : lookupKV xs k = none) : ∀ e ∈ xs, e.1 ≠ k := by
  induction xs with
  | nil => intro e he; simp at he
  | cons a rest ih =>
    cases a with
    | mk x b =>
      intro e he
      by_cases hx : x = k
      · simp [lookupKV, hx] at h
      · rcases List.mem_cons.mp he with h1 | h1
        · rw [h1]; exact hx
        · exact ih (by simpa [lookupKV, hx] using h) e h1

theorem udimProbe_fresh_spec (env : CommitEnv) (fmt : String) :
    ∀ (ts : List Nat) (acc : UniqueAcc),
      (ts.map (env.formatTile fmt)).Nodup →
      (∀ t ∈ ts, lookupKV acc.mapping (env.formatTile fmt t) = none) →
      ((udimProbe env fmt ts acc).2.1.textures =
          acc.textures ++
            (ts.filter (fun t => env.fileExists (env.formatTile fmt t))).map
              (fun t => (env.formatTile fmt t, t)) ∧
        (udimProbe env fmt ts acc).1 =
          (List.range (ts.filter (fun t => env.fileExists (env.formatTile fmt t))).length).map
            (fun k => acc.mapping.length + k) ∧
        (udimProbe env fmt ts acc).2.1.mapping.length =
          acc.mapping.length +
            (ts.filter (fun t => env.fileExists (env.formatTile fmt t))).length) := by
  intro ts
  induction ts with
  | nil =>
    intro acc hnd hfresh
    exact ⟨by simp [udimProbe], by simp [udimProbe], by simp [udimProbe]⟩
  | cons t rest ih =>
    intro acc hnd hfresh
    rw [List.map_cons, List.nodup_cons] at hnd
    have hfr := hfresh t (by simp)
    by_cases hex : env.fileExists (env.formatTile fmt t) = true
    · have hg : getUniqueTextureIndex acc (env.formatTile fmt t) t =
          (acc.mapping.length,
            ⟨acc.mapping ++ [(env.formatTile fmt t, acc.mapping.length)],
              acc.textures ++ [(env.formatTile fmt t, t)]⟩) := by
        simp [getUniqueTextureIndex, hfr]
      have hfresh' : ∀ t' ∈ rest,
          lookupKV (acc.mapping ++ [(env.formatTile fmt t, acc.mapping.length)])
            (env.formatTile fmt t') = none := by
        intro t' ht'
        rw [lookupKV_append, hfresh t' (by simp [ht'])]
        have hne : env.formatTile fmt t ≠ env.formatTile fmt t' := by
          intro hcontra
          exact hnd.1 (hcontra ▸ List.mem_map_of_mem (env.formatTile fmt) ht')
        simp [lookupKV, hne]
      have ihh := ih ⟨acc.mapping ++ [(env.formatTile fmt t, acc.mapping.length)],
          acc.textures ++ [(env.formatTile fmt t, t)]⟩ hnd.2 hfresh'
      have hlen' : (acc.mapping ++
          [(env.formatTile fmt t, acc.mapping.length)]).length = acc.mapping.length + 1 := by
        simp
      refine ⟨?_, ?_, ?_⟩
      · simp only [udimProbe, hex, if_true, hg]
        rw [ihh.1]
        simp [List.filter_cons, hex]
      · simp only [udimProbe, hex, if_true, hg]
        rw [ihh.2.1]
        simp only [hlen', List.filter_cons, hex, if_true]
        rw [List.length_cons, List.range_succ_eq_map]
        simp only [List.map_cons, List.map_map, Nat.add_zero]
        have harith : ∀ k : Nat, acc.mapping.length + 1 + k = acc.mapping.length + (k + 1) := by
          intro k; omega
        simp [Function.comp, harith]
      · simp only [udimProbe, hex, if_true, hg]
        rw [ihh.2.2]
        simp only [hlen', List.filter_cons, hex, if_true, List.length_cons]
        omega
    · have ihh := ih acc hnd.2 (fun t' ht' => hfresh t' (by simp [ht']))
      refine ⟨?_, ?_, ?_⟩
      · simp [udimProbe, hex, ihh.1, List.filter_cons]
      · simp [udimProbe, hex, ihh.2.1, List.filter_cons]
      · simp [udimProbe, hex, ihh.2.2, List.filter_cons]

/-- C5: for a commit that misses the phase-1 cache, a path matching the
multi-tile (UDIM) pattern probes storage for exactly the tile ids 1001..1100
(inclusive, in order), and the resulting unique-texture list and the
commit's tile list contain exactly the tiles whose file exists, in ascending
tile-id order (provided the external formatter maps distinct tile ids of the
range to distinct paths); a non-matching path contributes a single
unique-texture entry for the literal path. -/
theorem C5_udim_probe_range (env : CommitEnv) (i : Nat) (c : TextureCommit)
    (hmiss : env.getImage c.filepath c.colorspace c.wrapType [] 0 = none) :
    (∀ fmt, env.udimFormatString c.filepath = some fmt →
      ((phase1Step env i c Phase1State.initial).trace =
          TraceEvent.getImageCall c.filepath c.colorspace c.wrapType [] 0 ::
            udimTileRange.map (fun t => TraceEvent.fileAccess (env.formatTile fmt t)) ∧
        ((udimTileRange.map (env.formatTile fmt)).Nodup →
          (phase1Step env i c Phase1State.initial).acc.textures =
              (udimTileRange.filter (fun t => env.fileExists (env.formatTile fmt t))).map
                (fun t => (env.formatTile fmt t, t)) ∧
            (phase1Step env i c Phase1State.initial).perCommitIndices =
              [List.range ((udimTileRange.filter
                (fun t => env.fileExists (env.formatTile fmt t))).length)]))) ∧
    (env.udimFormatString c.filepath = none →
      phase1Step env i c Phase1State.initial =
        ⟨[[0]], ⟨[(c.filepath, 0)], [(c.filepath, 0)]⟩,
          [TraceEvent.getImageCall c.filepath c.colorspace c.wrapType [] 0]⟩) := by
  constructor
  · intro fmt hfmt
    have hfresh : ∀ t ∈ udimTileRange,
        lookupKV (Phase1State.initial.acc.mapping) (env.formatTile fmt t) = none := by
      intro t ht; rfl
    constructor
    · simp only [phase1Step, hmiss, hfmt]
      rw [udimProbe_trace]
      rfl
    · intro hnd
      have hspec := udimProbe_fresh_spec env fmt udimTileRange Phase1State.initial.acc hnd hfresh
      constructor
      · simp only [phase1Step, hmiss, hfmt]
        rw [hspec.1]
        rfl
      · simp only [phase1Step, hmiss, hfmt]
        rw [hspec.2.1]
        simp [Phase1State.initial, UniqueAcc.initial]
  · intro hnone
    simp [phase1Step, hmiss, hnone, getUniqueTextureIndex, lookupKV,
      Phase1State.initial, UniqueAcc.initial]

/-- A storage environment where the UDIM base pattern expands to
"tex.<id>" and exactly tiles 1001, 1003 and 1010 exist. -/
def udimWitnessEnv : CommitEnv :=
  { getImage := fun _ _ _ _ _ => none,
    udimFormatString := fun p => if p = "tex.<UDIM>.png" then some "tex." else none,
    formatTile := fun f t => f ++ Nat.repr t,
    fileExists := fun s => s == "tex.1001" || s == "tex.1003" || s == "tex.1010",
    loadTextureData := fun _ => some 1 }

/-- Concrete instance of C5: the probe touches exactly 1001..1100 and the
tile set resolves to exactly {1001, 1003, 1010}, ascending. -/
theorem C5_udim_probe_range_witness :
    ((phase1Step udimWitnessEnv 0 ⟨"tex.<UDIM>.png", "srgb", 1, 2⟩ Phase1State.initial).trace =
        TraceEvent.getImageCall "tex.<UDIM>.png" "srgb" 1 [] 0 ::
          udimTileRange.map
            (fun t => TraceEvent.fileAccess (udimWitnessEnv.formatTile "tex." t)) ∧
      (phase1Step udimWitnessEnv 0 ⟨"tex.<UDIM>.png", "srgb", 1, 2⟩
          Phase1State.initial).acc.textures =
        [("tex.1001", 1001), ("tex.1003", 1003), ("tex.1010", 1010)]) := by
  have h := C5_udim_probe_range udimWitnessEnv 0 ⟨"tex.<UDIM>.png", "srgb", 1, 2⟩ rfl
  have h1 := (h.1 "tex." rfl).1
  have h2 := ((h.1 "tex." rfl).2 (by decide)).1
  refine ⟨h1, ?_⟩
  rw [h2]
  decide

/-- Shape of every phase-1 trace event: any image-cache query carries an
empty tile list and zero required components; phase 1 performs no loads. -/
def phase1Shape : TraceEvent → Prop
  | TraceEvent.getImageCall _ _ _ tiles n => tiles = [] ∧ n = 0
  | TraceEvent.loadTexture _ => False
  | _ => True

/-- Shape of every phase-3 trace event: any image-cache query belongs to
some commit of the batch and carries that commit's path, colorspace, wrap
mode and — in particular — its own required component count. -/
def phase3Shape (cs : List TextureCommit) : TraceEvent → Prop
  | TraceEvent.getImageCall p col w _ n =>
    ∃ k, k < cs.length ∧ p = (cs.getD k ⟨"", "", 0, 0⟩).filepath ∧
      col = (cs.getD k ⟨"", "", 0, 0⟩).colorspace ∧
      w = (cs.getD k ⟨"", "", 0, 0⟩).wrapType ∧
      n = (cs.getD k ⟨"", "", 0, 0⟩).numComponentsRequired
  | TraceEvent.callback _ _ => True
  | _ => False

theorem phase1Step_trace_shape (env : CommitEnv) (i : Nat) (c : TextureCommit)
    (s : Phase1State) :
    ∀ e ∈ (phase1Step env i c s).trace, e ∈ s.trace ∨ phase1Shape e := by
  cases hg : env.getImage c.filepath c.colorspace c.wrapType [] 0 with
  | some img =>
    intro e he
    simp only [phase1Step, hg] at he
    rcases List.mem_append.mp he with h | h
    · exact Or.inl h
    · right
      rcases List.mem_cons.mp h with h1 | h1
      · rw [h1]; exact ⟨rfl, rfl⟩
      · simp at h1
        rw [h1]; trivial
  | none =>
    cases hf : env.udimFormatString c.filepath with
    | some fmt =>
      intro e he
      simp only [phase1Step, hg, hf] at he
      rw [udimProbe_trace] at he
      rcases List.mem_append.mp he with h | h
      · rcases List.mem_append.mp h with h1 | h1
        · exact Or.inl h1
        · right
          simp at h1
          rw [h1]; exact ⟨rfl, rfl⟩
      · right
        rcases List.mem_map.mp h with ⟨t, _, ht⟩
        rw [← ht]; trivial
    | none =>
      intro e he
      simp only [phase1Step, hg, hf] at he
      rcases List.mem_append.mp he with h | h
      · exact Or.inl h
      · right
        simp at h
        rw [h]; exact ⟨rfl, rfl⟩

theorem phase1Run_trace_shape (env : CommitEnv) :
    ∀ (cs : List TextureCommit) (i : Nat) (s : Phase1State),
      (∀ e ∈ s.trace, phase1Shape e) →
      ∀ e ∈ (phase1Run env i cs s).trace, phase1Shape e := by
  intro cs
  induction cs with
  | nil => intro i s hs e he; exact hs e he
  | cons c rest ih =>
    intro i s hs e he
    refine ih (i + 1) (phase1Step env i c s) ?_ e he
    intro e' he'
    rcases phase1Step_trace_shape env i c s e' he' with h | h
    · exact hs e' h
    · exact h

theorem phase3Shape_lift (c : TextureCommit) (cs : List TextureCommit) (e : TraceEvent)
    (h : phase3Shape cs e) : phase3Shape (c :: cs) e := by
  cases e with
  | getImageCall p col w tiles n =>
    rcases h with ⟨k, hk, h1, h2, h3, h4⟩
    exact ⟨k + 1, by simpa using Nat.succ_lt_succ hk, by simpa using h1,
      by simpa using h2, by simpa using h3, by simpa using h4⟩
  | callback j im => trivial
  | fileAccess p => exact h
  | loadTexture p => exact h

theorem phase3Run_trace_shape (env : CommitEnv) (data : List (Option Nat))
    (tex : List (String × Nat)) :
    ∀ (cs : List TextureCommit) (i : Nat) (inds : List (List Nat)) (e : TraceEvent),
      e ∈ phase3Run env data tex i cs inds → phase3Shape cs e := by
  intro cs
  induction cs with
  | nil => intro i inds e he; simp [phase3Run] at he
  | cons c rest ih =>
    intro i inds e he
    cases inds with
    | nil => simp [phase3Run] at he
    | cons ind irest =>
      simp only [phase3Run] at he
      rcases List.mem_append.mp he with h | h
      · simp only [phase3Step] at h
        split at h
        · simp at h
        · rcases List.mem_cons.mp h with h1 | h1
          · rw [h1]
            exact ⟨0, by simp, rfl, rfl, rfl, rfl⟩
          · simp at h1
            rw [h1]; trivial
      · exact phase3Shape_lift c rest e (ih (i + 1) irest e h)

/-- C10: every phase-1 image-cache lookup passes an empty tile list and a
required-component count of zero regardless of the commit's own
numComponentsRequired (so a phase-1 cache hit involves no component-count
check); the phase-3 image-construction calls are the ones carrying each
commit's numComponentsRequired. -/
theorem C10_phase1_lookup_ignores_component_count (env : CommitEnv)
    (commits : List TextureCommit) :
    (∀ e ∈ (commitResourcesRun env commits).1.trace, phase1Shape e) ∧
    (∀ e ∈ (commitResourcesRun env commits).2.2.2, phase3Shape commits e) := by
  constructor
  · intro e he
    exact phase1Run_trace_shape env commits 0 Phase1State.initial
      (by intro e' he'; simp [Phase1State.initial] at he') e he
  · intro e he
    exact phase3Run_trace_shape env _ _ commits 0 _ e he

/-- An environment whose cache misses empty-tile queries and hits tile
queries; used to exercise both phases at a concrete commit. -/
def c10Env : CommitEnv :=
  { getImage := fun _ _ _ tiles n => if tiles.isEmpty && n == 0 then none else some 5,
    udimFormatString := fun _ => none,
    formatTile := fun f _ => f,
    fileExists := fun _ => true,
    loadTextureData := fun _ => some 3 }

/-- Concrete instance of C10: for a commit requiring 4 components, the
phase-1 lookup in the trace uses ([], 0) and the phase-3 construction call
uses the commit's own count 4. -/
theorem C10_phase1_lookup_ignores_component_count_witness :
    phase1Shape (TraceEvent.getImageCall "p" "srgb" 2 [] 0) ∧
    phase3Shape [⟨"p", "srgb", 2, 4⟩] (TraceEvent.getImageCall "p" "srgb" 2 [(0, 3)] 4) :=
  ⟨(C10_phase1_lookup_ignores_component_count c10Env [⟨"p", "srgb", 2, 4⟩]).1
      (TraceEvent.getImageCall "p" "srgb" 2 [] 0) (by decide),
    (C10_phase1_lookup_ignores_component_count c10Env [⟨"p", "srgb", 2, 4⟩]).2
      (TraceEvent.getImageCall "p" "srgb" 2 [(0, 3)] 4) (by decide)⟩

/-- Key invariant of the unique-texture accumulator: the mapping's key set
is exactly the collected texture paths, without duplicates. -/
def AccKeysInv (acc : UniqueAcc) : Prop :=
  acc.mapping.map Prod.fst = acc.textures.map Prod.fst ∧
    (acc.textures.map Prod.fst).Nodup

theorem getUniqueTextureIndex_keys (acc : UniqueAcc) (p : String) (tid : Nat)
    (h : AccKeysInv acc) : AccKeysInv (getUniqueTextureIndex acc p tid).2 := by
  cases hl : lookupKV acc.mapping p with
  | some idx => simpa [getUniqueTextureIndex, hl] using h
  | none =>
    have hnot : p ∉ acc.textures.map Prod.fst := by
      rw [← h.1]
      intro hmem
      rcases List.mem_map.mp hmem with ⟨e, he, hep⟩
      exact lookupKV_none_forall acc.mapping p hl e he hep
    constructor
    · simp [getUniqueTextureIndex, hl, h.1]
    · simp [getUniqueTextureIndex, hl, List.nodup_append, h.2, hnot]

theorem udimProbe_keys (env : CommitEnv) (fmt : String) :
    ∀ (ts : List Nat) (acc : UniqueAcc), AccKeysInv acc →
      AccKeysInv (udimProbe env fmt ts acc).2.1 := by
  intro ts
  induction ts with
  | nil => intro acc h; exact h
  | cons t rest ih =>
    intro acc h
    cases hex : env.fileExists (env.formatTile fmt t) with
    | true =>
      simp only [udimProbe, hex, if_true]
      exact ih _ (getUniqueTextureIndex_keys acc _ t h)
    | false =>
      simp [udimProbe, hex]
      exact ih acc h

theorem phase1Step_keys (env : CommitEnv) (i : Nat) (c : TextureCommit) (s : Phase1State)
    (h : AccKeysInv s.acc) : AccKeysInv (phase1Step env i c s).acc := by
  cases hg : env.getImage c.filepath c.colorspace c.wrapType [] 0 with
  | some img => simpa [phase1Step, hg] using h
  | none =>
    cases hf : env.udimFormatString c.filepath with
    | some fmt =>
      simp only [phase1Step, hg, hf]
      exact udimProbe_keys env fmt udimTileRange s.acc h
    | none =>
      simp only [phase1Step, hg, hf]
      exact getUniqueTextureIndex_keys s.acc c.filepath 0 h

theorem phase1Run_keys (env : CommitEnv) :
    ∀ (cs : List TextureCommit) (i : Nat) (s : Phase1State), AccKeysInv s.acc →
      AccKeysInv (phase1Run env i cs s).acc := by
  intro cs
  induction cs with
  | nil => intro i s h; exact h
  | cons c rest ih => intro i s h; exact ih (i + 1) _ (phase1Step_keys env i c s h)

/-- C6: unique-texture deduplication is keyed by resolved file path: the
unique-texture list of a batch never repeats a path (so two commits with
the same path share one entry), the full run performs at most one raw load
per path, and for a batch of two cache-missing single-image commits with
the same path both commits receive the same unique-texture index 0 of the
single entry created at the first occurrence. -/
theorem C6_texture_dedup_by_path (env : CommitEnv) (commits : List TextureCommit) :
    (((phase1Run env 0 commits Phase1State.initial).acc.textures.map Prod.fst).Nodup) ∧
    (∀ p, (commitResources env commits).1.countP
        (fun e => e == TraceEvent.loadTexture p) ≤ 1) ∧
    (∀ c1 c2 : TextureCommit,
      commits = [c1, c2] →
      env.getImage c1.filepath c1.colorspace c1.wrapType [] 0 = none →
      env.getImage c2.filepath c2.colorspace c2.wrapType [] 0 = none →
      env.udimFormatString c1.filepath = none →
      env.udimFormatString c2.filepath = none →
      c2.filepath = c1.filepath →
      (phase1Run env 0 commits Phase1State.initial).perCommitIndices = [[0], [0]] ∧
        (phase1Run env 0 commits Phase1State.initial).acc.textures = [(c1.filepath, 0)]) := by
  have hnodup : ((phase1Run env 0 commits Phase1State.initial).acc.textures.map
      Prod.fst).Nodup :=
    (phase1Run_keys env commits 0 Phase1State.initial ⟨rfl, List.nodup_nil⟩).2
  refine ⟨hnodup, ?_, ?_⟩
  · intro p
    cases commits with
    | nil => simp [commitResources]
    | cons c cs =>
      simp only [commitResources, commitResourcesRun, List.isEmpty_cons, Bool.false_eq_true,
        if_false]
      rw [List.countP_append, List.countP_append]
      have hp1 : ((phase1Run env 0 (c :: cs) Phase1State.initial).trace).countP
          (fun e => e == TraceEvent.loadTexture p) = 0 := by
        rw [List.countP_eq_zero]
        intro e he hbeq
        have heq : e = TraceEvent.loadTexture p := by
          exact eq_of_beq hbeq
        have := phase1Run_trace_shape env (c :: cs) 0 Phase1State.initial
          (by intro e' he'; simp [Phase1State.initial] at he') e he
        rw [heq] at this
        exact this
      have hp3 : ((phase3Run env
          (phase2 env (phase1Run env 0 (c :: cs) Phase1State.initial).acc.textures).1
          (phase1Run env 0 (c :: cs) Phase1State.initial).acc.textures 0 (c :: cs)
          (phase1Run env 0 (c :: cs) Phase1State.initial).perCommitIndices)).countP
          (fun e => e == TraceEvent.loadTexture p) = 0 := by
        rw [List.countP_eq_zero]
        intro e he hbeq
        have heq : e = TraceEvent.loadTexture p := eq_of_beq hbeq
        have := phase3Run_trace_shape env _ _ (c :: cs) 0 _ e he
        rw [heq] at this
        exact this
      have hload : ((phase2 env
          (phase1Run env 0 (c :: cs) Phase1State.initial).acc.textures).2).countP
          (fun e => e == TraceEvent.loadTexture p) ≤ 1 := by
        have hnd : ((phase1Run env 0 (c :: cs) Phase1State.initial).acc.textures.map
            Prod.fst).Nodup :=
          (phase1Run_keys env (c :: cs) 0 Phase1State.initial ⟨rfl, List.nodup_nil⟩).2
        simp only [phase2]
        rw [List.countP_map]
        have hcongr : ∀ u ∈ (phase1Run env 0 (c :: cs) Phase1State.initial).acc.textures,
            (((fun e => e == TraceEvent.loadTexture p) ∘
              (fun u : String × Nat => TraceEvent.loadTexture u.1)) u = true ↔
              (u.1 == p) = true) := by
          intro u _
          simp [Function.comp]
        rw [List.countP_congr hcongr]
        have hcount := List.nodup_iff_count_le_one.mp hnd p
        rw [List.count, List.countP_map] at hcount
        exact hcount
      omega
  · intro c1 c2 hbatch h1 h2 hu1 hu2 hp
    subst hbatch
    rw [hp] at h2 hu2
    constructor
    · simp [phase1Run, phase1Step, h1, h2, hu1, hu2, hp, getUniqueTextureIndex, lookupKV,
        Phase1State.initial, UniqueAcc.initial]
    · simp [phase1Run, phase1Step, h1, h2, hu1, hu2, hp, getUniqueTextureIndex, lookupKV,
        Phase1State.initial, UniqueAcc.initial]

/-- A storage/cache environment that always misses and never matches the
UDIM pattern. -/
def dedupEnv : CommitEnv :=
  { getImage := fun _ _ _ _ _ => none,
    udimFormatString := fun _ => none,
    formatTile := fun f _ => f,
    fileExists := fun _ => false,
    loadTextureData := fun _ => some 2 }

/-- Concrete instance of C6: two commits for path "P" share the single
unique-texture entry created at index 0. -/
theorem C6_texture_dedup_by_path_witness :
    (phase1Run dedupEnv 0 [⟨"P", "a", 0, 1⟩, ⟨"P", "b", 1, 2⟩]
        Phase1State.initial).perCommitIndices = [[0], [0]] ∧
      (phase1Run dedupEnv 0 [⟨"P", "a", 0, 1⟩, ⟨"P", "b", 1, 2⟩]
        Phase1State.initial).acc.textures = [("P", 0)] :=
  (C6_texture_dedup_by_path dedupEnv [⟨"P", "a", 0, 1⟩, ⟨"P", "b", 1, 2⟩]).2.2
    ⟨"P", "a", 0, 1⟩ ⟨"P", "b", 1, 2⟩ rfl rfl rfl rfl rfl rfl

/-- Whether a commit hits the phase-1 image cache. -/
def commitHit (env : CommitEnv) (c : TextureCommit) : Bool :=
  (env.getImage c.filepath c.colorspace c.wrapType [] 0).isSome

/-- Whether a commit ends phase 1 with an empty unique-texture index list:
a cache hit, or a UDIM pattern none of whose tiles exists on storage. -/
def commitPlanEmpty (env : CommitEnv) (c : TextureCommit) : Bool :=
  commitHit env c ||
    (match env.udimFormatString c.filepath with
     | some fmt =>
       (udimTileRange.filter (fun t => env.fileExists (env.formatTile fmt t))).isEmpty
     | none => false)

/-- Number of callback invocations recorded for commit index `j`. -/
def callbackCount (tr : List TraceEvent) (j : Nat) : Nat :=
  tr.countP (fun e => match e with
    | TraceEvent.callback k _ => k == j
    | _ => false)

/-- Specification count of phase-1 callbacks for commit index `j`, with `i`
the index of the first listed commit. -/
def p1cbCount (env : CommitEnv) : Nat → List TextureCommit → Nat → Nat
  | _, [], _ => 0
  | i, c :: cs, j =>
    (if j = i ∧ commitHit env c = true then 1 else 0) + p1cbCount env (i + 1) cs j

/-- Specification count of phase-3 callbacks for commit index `j`. -/
def p3cbCount : Nat → List TextureCommit → List (List Nat) → Nat → Nat
  | _, [], _, _ => 0
  | _, _ :: _, [], _ => 0
  | i, _ :: cs, ind :: rest, j =>
    (if j = i ∧ ind.isEmpty = false then 1 else 0) + p3cbCount (i + 1) cs rest j

theorem callbackCount_append (t1 t2 : List TraceEvent) (j : Nat) :
    callbackCount (t1 ++ t2) j = callbackCount t1 j + callbackCount t2 j :=
  List.countP_append _ _ _

theorem phase1Step_callbackCount (env : CommitEnv) (i : Nat) (c : TextureCommit)
    (s : Phase1State) (j : Nat) :
    callbackCount (phase1Step env i c s).trace j =
      callbackCount s.trace j + (if j = i ∧ commitHit env c = true then 1 else 0) := by
  cases hg : env.getImage c.filepath c.colorspace c.wrapType [] 0 with
  | some img =>
    have hhit : commitHit env c = true := by simp [commitHit, hg]
    by_cases hj : j = i
    · subst hj
      simp [phase1Step, hg, callbackCount, List.countP_append, List.countP_cons, hhit]
    · simp [phase1Step, hg, callbackCount, List.countP_append, List.countP_cons, hhit,
        hj, Ne.symm hj]
  | none =>
    have hhit : commitHit env c = false := by simp [commitHit, hg]
    cases hf : env.udimFormatString c.filepath with
    | some fmt =>
      simp only [phase1Step, hg, hf, callbackCount]
      rw [udimProbe_trace, List.countP_append, List.countP_append]
      simp [hhit, List.countP_cons, List.countP_map, Function.comp]
    | none =>
      simp [phase1Step, hg, hf, callbackCount, List.countP_append, List.countP_cons, hhit]

theorem phase1Run_callbackCount (env : CommitEnv) :
    ∀ (cs : List TextureCommit) (i : Nat) (s : Phase1State) (j : Nat),
      callbackCount (phase1Run env i cs s).trace j =
        callbackCount s.trace j + p1cbCount env i cs j := by
  intro cs
  induction cs with
  | nil => intro i s j; simp [phase1Run, p1cbCount]
  | cons c rest ih =>
    intro i s j
    simp only [phase1Run, p1cbCount]
    rw [ih (i + 1) _ j, phase1Step_callbackCount]
    omega

theorem p1cbCount_lt (env : CommitEnv) :
    ∀ (cs : List TextureCommit) (i j : Nat), j < i → p1cbCount env i cs j = 0 := by
  intro cs
  induction cs with
  | nil => intro i j h; rfl
  | cons c rest ih =>
    intro i j h
    simp only [p1cbCount]
    rw [ih (i + 1) j (by omega)]
    have hne : ¬(j = i ∧ commitHit env c = true) := by rintro ⟨h1, _⟩; omega
    simp [hne]

theorem p1cbCount_ge (env : CommitEnv) :
    ∀ (cs : List TextureCommit) (i j : Nat), i + cs.length ≤ j → p1cbCount env i cs j = 0 := by
  intro cs
  induction cs with
  | nil => intro i j h; rfl
  | cons c rest ih =>
    intro i j h
    simp only [List.length_cons] at h
    simp only [p1cbCount]
    rw [ih (i + 1) j (by omega)]
    have hne : ¬(j = i ∧ commitHit env c = true) := by rintro ⟨h1, _⟩; omega
    simp [hne]

theorem p1cbCount_pos (env : CommitEnv) :
    ∀ (cs : List TextureCommit) (i k : Nat), k < cs.length →
      p1cbCount env i cs (i + k) =
        if commitHit env (cs.getD k ⟨"", "", 0, 0⟩) = true then 1 else 0 := by
  intro cs
  induction cs with
  | nil => intro i k h; simp at h
  | cons c rest ih =>
    intro i k h
    cases k with
    | zero =>
      simp only [p1cbCount, Nat.add_zero, List.getD_cons_zero]
      rw [p1cbCount_lt env rest (i + 1) i (by omega)]
      simp
    | succ k2 =>
      simp only [p1cbCount, List.getD_cons_succ]
      have harith : i + (k2 + 1) = (i + 1) + k2 := by omega
      rw [harith, ih (i + 1) k2 (by simpa using h)]
      have hne : ¬((i + 1) + k2 = i ∧ commitHit env c = true) := by rintro ⟨h1, _⟩; omega
      simp [hne]

theorem phase3Step_callbackCount (env : CommitEnv) (data : List (Option Nat))
    (tex : List (String × Nat)) (i : Nat) (c : TextureCommit) (inds : List Nat) (j : Nat) :
    callbackCount (phase3Step env data tex i c inds) j =
      if j = i ∧ inds.isEmpty = false then 1 else 0 := by
  cases hind : inds.isEmpty with
  | true => simp [phase3Step, hind, callbackCount]
  | false =>
    by_cases hj : j = i
    · subst hj
      simp [phase3Step, hind, callbackCount, List.countP_cons]
    · simp [phase3Step, hind, callbackCount, List.countP_cons, hj, Ne.symm hj]

theorem phase3Run_callbackCount (env : CommitEnv) (data : List (Option Nat))
    (tex : List (String × Nat)) :
    ∀ (cs : List TextureCommit) (i : Nat) (inds : List (List Nat)) (j : Nat),
      callbackCount (phase3Run env data tex i cs inds) j = p3cbCount i cs inds j := by
  intro cs
  induction cs with
  | nil => intro i inds j; cases inds <;> simp [phase3Run, p3cbCount, callbackCount]
  | cons c rest ih =>
    intro i inds j
    cases inds with
    | nil => simp [phase3Run, p3cbCount, callbackCount]
    | cons ind irest =>
      simp only [phase3Run, p3cbCount]
      rw [callbackCount_append, phase3Step_callbackCount, ih (i + 1) irest j]

theorem p3cbCount_lt :
    ∀ (cs : List TextureCommit) (inds : List (List Nat)) (i j : Nat), j < i →
      p3cbCount i cs inds j = 0 := by
  intro cs
  induction cs with
  | nil => intro inds i j h; rfl
  | cons c rest ih =>
    intro inds i j h
    cases inds with
    | nil => rfl
    | cons ind irest =>
      simp only [p3cbCount]
      rw [ih irest (i + 1) j (by omega)]
      have hji : j ≠ i := by omega
      simp [hji]

theorem p3cbCount_ge :
    ∀ (cs : List TextureCommit) (inds : List (List Nat)) (i j : Nat), i + cs.length ≤ j →
      p3cbCount i cs inds j = 0 := by
  intro cs
  induction cs with
  | nil => intro inds i j h; rfl
  | cons c rest ih =>
    intro inds i j h
    simp only [List.length_cons] at h
    cases inds with
    | nil => rfl
    | cons ind irest =>
      simp only [p3cbCount]
      rw [ih irest (i + 1) j (by omega)]
      have hji : j ≠ i := by omega
      simp [hji]

theorem p3cbCount_pos :
    ∀ (cs : List TextureCommit) (inds : List (List Nat)) (i k : Nat), k < cs.length →
      inds.length = cs.length →
      p3cbCount i cs inds (i + k) =
        if (inds.getD k []).isEmpty = true then 0 else 1 := by
  intro cs
  induction cs with
  | nil => intro inds i k h; simp at h
  | cons c rest ih =>
    intro inds i k h hlen
    cases inds with
    | nil => simp at hlen
    | cons ind irest =>
      cases k with
      | zero =>
        simp only [p3cbCount, Nat.add_zero, List.getD_cons_zero]
        rw [p3cbCount_lt rest irest (i + 1) i (by omega)]
        rcases Bool.eq_false_or_eq_true ind.isEmpty with hind | hind <;> simp [hind]
      | succ k2 =>
        simp only [p3cbCount, List.getD_cons_succ]
        have harith : i + (k2 + 1) = (i + 1) + k2 := by omega
        rw [harith, ih irest (i + 1) k2 (by simpa using h) (by simpa using hlen)]
        have hji : (i + 1) + k2 ≠ i := by omega
        simp [hji]

theorem list_isEmpty_eq_of_length {α β : Type _} (l1 : List α) (l2 : List β)
    (h : l1.length = l2.length) : l1.isEmpty = l2.isEmpty := by
  cases l1 <;> cases l2 <;> simp_all

theorem phase1Step_plans (env : CommitEnv) (i : Nat) (c : TextureCommit) (s : Phase1State) :
    (phase1Step env i c s).perCommitIndices.map List.isEmpty =
      s.perCommitIndices.map List.isEmpty ++ [commitPlanEmpty env c] := by
  cases hg : env.getImage c.filepath c.colorspace c.wrapType [] 0 with
  | some img =>
    have hhit : commitHit env c = true := by simp [commitHit, hg]
    simp [phase1Step, hg, commitPlanEmpty, hhit]
  | none =>
    have hhit : commitHit env c = false := by simp [commitHit, hg]
    cases hf : env.udimFormatString c.filepath with
    | some fmt =>
      simp only [phase1Step, hg, hf]
      simp only [List.map_append, List.map_cons, List.map_nil]
      rw [commitPlanEmpty, hhit, hf]
      simp only [Bool.false_or]
      rw [list_isEmpty_eq_of_length _ _ (udimProbe_length env fmt udimTileRange s.acc)]
    | none =>
      simp [phase1Step, hg, hf, commitPlanEmpty, hhit]

theorem phase1Run_plans (env : CommitEnv) :
    ∀ (cs : List TextureCommit) (i : Nat) (s : Phase1State),
      (phase1Run env i cs s).perCommitIndices.map List.isEmpty =
        s.perCommitIndices.map List.isEmpty ++ cs.map (commitPlanEmpty env) := by
  intro cs
  induction cs with
  | nil => intro i s; simp [phase1Run]
  | cons c rest ih =>
    intro i s
    simp only [phase1Run, List.map_cons]
    rw [ih (i + 1) _, phase1Step_plans]
    simp

theorem phase1Run_plans_length (env : CommitEnv) (cs : List TextureCommit) (i : Nat)
    (s : Phase1State) :
    (phase1Run env i cs s).perCommitIndices.length =
      s.perCommitIndices.length + cs.length := by
  have h := congrArg List.length (phase1Run_plans env cs i s)
  simpa using h

theorem getD_default_irrel {β : Type _} :
    ∀ (l : List β) (j : Nat) (d1 d2 : β), j < l.length → l.getD j d1 = l.getD j d2 := by
  intro l
  induction l with
  | nil => intro j d1 d2 h; simp at h
  | cons a rest ih =>
    intro j d1 d2 h
    cases j with
    | zero => rfl
    | succ k => simpa using ih k d1 d2 (by simpa using h)

theorem getD_map_eq {α β : Type _} (f : α → β) :
    ∀ (l : List α) (j : Nat) (d : α), j < l.length →
      (l.map f).getD j (f d) = f (l.getD j d) := by
  intro l
  induction l with
  | nil => intro j d h; simp at h
  | cons a rest ih =>
    intro j d h
    cases j with
    | zero => rfl
    | succ k => exact ih k d (by simpa using h)

/-- C4 (amended): after a `CommitResources` run the commit queue is always
cleared (no commit is retried), every commit's callback is invoked at most
once, and for every queued commit the exact count is: zero precisely when
the commit misses the phase-1 cache and its unique-texture index list comes
out empty (`commitPlanEmpty`: a UDIM pattern none of whose tiles 1001..1100
exists — phase 3 skips such a commit), and one in every other case — a
cache hit (UDIM or not, invoked in phase 1), a UDIM path with at least one
existing tile, or a non-UDIM path (invoked in phase 3). -/
theorem C4_commit_callback_amended (env : CommitEnv) (commits : List TextureCommit) :
    (commitResources env commits).2 = [] ∧
    (∀ j, callbackCount (commitResources env commits).1 j ≤ 1) ∧
    (∀ j, j < commits.length →
      callbackCount (commitResources env commits).1 j =
        if commitHit env (commits.getD j ⟨"", "", 0, 0⟩) = false ∧
            commitPlanEmpty env (commits.getD j ⟨"", "", 0, 0⟩) = true
        then 0 else 1) := by
  cases commits with
  | nil =>
    refine ⟨rfl, ?_, ?_⟩
    · intro j; simp [commitResources, callbackCount]
    · intro j hj; simp at hj
  | cons c cs =>
    have htrace : (commitResources env (c :: cs)).1 =
        (phase1Run env 0 (c :: cs) Phase1State.initial).trace ++
          (phase2 env (phase1Run env 0 (c :: cs) Phase1State.initial).acc.textures).2 ++
          phase3Run env
            (phase2 env (phase1Run env 0 (c :: cs) Phase1State.initial).acc.textures).1
            (phase1Run env 0 (c :: cs) Phase1State.initial).acc.textures 0 (c :: cs)
            (phase1Run env 0 (c :: cs) Phase1State.initial).perCommitIndices := by
      simp [commitResources, commitResourcesRun]
    have hcount : ∀ j, callbackCount (commitResources env (c :: cs)).1 j =
        p1cbCount env 0 (c :: cs) j +
          p3cbCount 0 (c :: cs)
            (phase1Run env 0 (c :: cs) Phase1State.initial).perCommitIndices j := by
      intro j
      rw [htrace, callbackCount_append, callbackCount_append]
      have h1 : callbackCount (phase1Run env 0 (c :: cs) Phase1State.initial).trace j =
          p1cbCount env 0 (c :: cs) j := by
        have h := phase1Run_callbackCount env (c :: cs) 0 Phase1State.initial j
        simpa [callbackCount, Phase1State.initial] using h
      have h2 : callbackCount
          (phase2 env
            (phase1Run env 0 (c :: cs) Phase1State.initial).acc.textures).2 j = 0 := by
        simp only [phase2, callbackCount]
        rw [List.countP_eq_zero]
        intro e he
        rcases List.mem_map.mp he with ⟨u, _, hu⟩
        rw [← hu]
        simp
      have h3 := phase3Run_callbackCount env
        (phase2 env (phase1Run env 0 (c :: cs) Phase1State.initial).acc.textures).1
        (phase1Run env 0 (c :: cs) Phase1State.initial).acc.textures (c :: cs) 0
        (phase1Run env 0 (c :: cs) Phase1State.initial).perCommitIndices j
      omega
    have hplanlen : (phase1Run env 0 (c :: cs) Phase1State.initial).perCommitIndices.length =
        (c :: cs).length := by
      have h := phase1Run_plans_length env (c :: cs) 0 Phase1State.initial
      simpa [Phase1State.initial] using h
    have hplan : ∀ j, j < (c :: cs).length →
        ((phase1Run env 0 (c :: cs) Phase1State.initial).perCommitIndices.getD
            j []).isEmpty =
          commitPlanEmpty env ((c :: cs).getD j ⟨"", "", 0, 0⟩) := by
      intro j hj
      have hjlt : j <
          (phase1Run env 0 (c :: cs) Phase1State.initial).perCommitIndices.length := by
        omega
      have hmap := phase1Run_plans env (c :: cs) 0 Phase1State.initial
      calc ((phase1Run env 0 (c :: cs) Phase1State.initial).perCommitIndices.getD
              j []).isEmpty
          = ((phase1Run env 0 (c :: cs) Phase1State.initial).perCommitIndices.map
              List.isEmpty).getD j true := (getD_map_eq List.isEmpty _ j [] hjlt).symm
        _ = ((c :: cs).map (commitPlanEmpty env)).getD j true := by
            rw [hmap]; simp [Phase1State.initial]
        _ = ((c :: cs).map (commitPlanEmpty env)).getD j
              (commitPlanEmpty env ⟨"", "", 0, 0⟩) :=
            getD_default_irrel _ j _ _ (by simpa using hj)
        _ = commitPlanEmpty env ((c :: cs).getD j ⟨"", "", 0, 0⟩) :=
            getD_map_eq (commitPlanEmpty env) _ j _ hj
    refine ⟨by simp [commitResources], ?_, ?_⟩
    · intro j
      rw [hcount j]
      by_cases hrange : j < (c :: cs).length
      · have hp1 := p1cbCount_pos env (c :: cs) 0 j hrange
        rw [Nat.zero_add] at hp1
        have hp3 := p3cbCount_pos (c :: cs)
          (phase1Run env 0 (c :: cs) Phase1State.initial).perCommitIndices 0 j hrange hplanlen
        rw [Nat.zero_add] at hp3
        rw [hp1, hp3, hplan j hrange]
        cases hhit : commitHit env ((c :: cs).getD j ⟨"", "", 0, 0⟩) with
        | true =>
          have hpe : commitPlanEmpty env ((c :: cs).getD j ⟨"", "", 0, 0⟩) = true := by
            simp only [commitPlanEmpty]
            rw [hhit]
            exact Bool.true_or _
          rw [hpe]
          simp
        | false =>
          simp only [Bool.false_eq_true, if_false]
          split <;> omega
      · have hge1 := p1cbCount_ge env (c :: cs) 0 j (by omega)
        have hge3 := p3cbCount_ge (c :: cs)
          (phase1Run env 0 (c :: cs) Phase1State.initial).perCommitIndices 0 j (by omega)
        omega
    · intro j hj
      rw [hcount j]
      have hp1 := p1cbCount_pos env (c :: cs) 0 j hj
      rw [Nat.zero_add] at hp1
      have hp3 := p3cbCount_pos (c :: cs)
        (phase1Run env 0 (c :: cs) Phase1State.initial).perCommitIndices 0 j hj hplanlen
      rw [Nat.zero_add] at hp3
      rw [hp1, hp3, hplan j hj]
      cases hhit : commitHit env ((c :: cs).getD j ⟨"", "", 0, 0⟩) with
      | true =>
        have hpe : commitPlanEmpty env ((c :: cs).getD j ⟨"", "", 0, 0⟩) = true := by
          simp only [commitPlanEmpty]
          rw [hhit]
          exact Bool.true_or _
        rw [hpe]
        simp
      | false =>
        cases hpe : commitPlanEmpty env ((c :: cs).getD j ⟨"", "", 0, 0⟩) with
        | true => simp
        | false => simp

/-- A UDIM environment where no tile file exists on storage. -/
def udimNoTilesEnv : CommitEnv :=
  { getImage := fun _ _ _ _ _ => none,
    udimFormatString := fun _ => some "f",
    formatTile := fun f t => f ++ Nat.repr t,
    fileExists := fun _ => false,
    loadTextureData := fun _ => none }

/-- C4 counterexample: a commit whose path matches the UDIM pattern,
misses the cache and has no existing tile in 1001..1100 ends phase 1 with
an empty index list, phase 3 skips it, and its callback is invoked zero
times — contradicting the claim that every queued commit's callback runs
exactly once (with null on total failure).  The queue is still cleared. -/
theorem C4_udim_no_tiles_skips_callback_counterexample :
    callbackCount (commitResources udimNoTilesEnv [⟨"tex", "srgb", 0, 3⟩]).1 0 = 0 ∧
      (commitResources udimNoTilesEnv [⟨"tex", "srgb", 0, 3⟩]).2 = [] := by
  constructor
  · decide
  · rfl

/-- Concrete instances of the amended C4's exact-count characterization: a
non-UDIM cache-missing commit's callback runs exactly once, a cache-missing
UDIM commit with no existing tile gets the zero count, and the queue is
cleared. -/
theorem C4_commit_callback_amended_witness :
    (callbackCount (commitResources c10Env [⟨"p", "srgb", 2, 4⟩]).1 0 =
        if commitHit c10Env (([⟨"p", "srgb", 2, 4⟩] :
              List TextureCommit).getD 0 ⟨"", "", 0, 0⟩) = false ∧
            commitPlanEmpty c10Env (([⟨"p", "srgb", 2, 4⟩] :
              List TextureCommit).getD 0 ⟨"", "", 0, 0⟩) = true
        then 0 else 1) ∧
      callbackCount (commitResources c10Env [⟨"p", "srgb", 2, 4⟩]).1 0 = 1 ∧
      (callbackCount (commitResources udimNoTilesEnv [⟨"tex", "srgb", 0, 3⟩]).1 0 =
        if commitHit udimNoTilesEnv (([⟨"tex", "srgb", 0, 3⟩] :
              List TextureCommit).getD 0 ⟨"", "", 0, 0⟩) = false ∧
            commitPlanEmpty udimNoTilesEnv (([⟨"tex", "srgb", 0, 3⟩] :
              List TextureCommit).getD 0 ⟨"", "", 0, 0⟩) = true
        then 0 else 1) ∧
      (commitResources c10Env [⟨"p", "srgb", 2, 4⟩]).2 = [] :=
  ⟨(C4_commit_callback_amended c10Env [⟨"p", "srgb", 2, 4⟩]).2.2 0 (by decide),
    by decide,
    (C4_commit_callback_amended udimNoTilesEnv [⟨"tex", "srgb", 0, 3⟩]).2.2 0 (by decide),
    (C4_commit_callback_amended c10Env [⟨"p", "srgb", 2, 4⟩]).1⟩

end RprUsd
